import Mathlib

/-
Verification of the function-space subsystem of the odl repository
(odl/space/fspace.py) against its natural-language specification.

The development shallowly embeds fspace.py over an exact value model:
numpy scalars and ndarrays carry rational entries, evaluation closures are
pure functions returning Except values, and the in-place numpy operations
become explicit state passing (an in-place closure receives the output
buffer and returns its final contents).  Helpers that fspace.py imports
from modules not present under src (odl.util.vectorization, odl.set.sets,
odl.set.space, odl.operator.operator) are modelled from the spec and say
so in their doc comments.
-/

namespace ODLF

/-- Error taxonomy of the evaluation protocol (spec section 7).  Constructors
correspond to the exception classes raised in fspace.py: TypeError on
malformed callables or arguments, ValueError variants for domain, range,
shape and usage violations, AttributeError for a missing contains_all
capability, NotImplementedError for the missing out-of-place method, and
NameError for a read of an unbound local. -/
inductive Err where
  | typeConflict
  | invalidInput
  | outOfDomain
  | outOfRange
  | missingCapability
  | shapeMismatch
  | invalidUsage
  | notImplemented
  | valueError
  | nameError
  deriving DecidableEq, Repr

/-- Model of a numpy ndarray: a shape together with the C-order flattened
entries.  The memory-order flag of the source arrays has no influence on
any value computed here and is not represented. -/
structure Nd where
  shape : List ℕ
  data : List ℚ
  deriving DecidableEq, Repr

/-- Number of axes, numpy ndim. -/
def Nd.ndim (a : Nd) : ℕ := a.shape.length

/-- Number of entries, numpy size. -/
def Nd.size (a : Nd) : ℕ := a.shape.prod

/-- Dynamic Python values flowing through evaluation closures: numpy scalars,
ndarrays, plain Python lists of numbers (produced by the lazy vectorization
path) and tuples (points produced by the meshgrid iteration). -/
inductive V where
  | num (q : ℚ)
  | nd (a : Nd)
  | plist (xs : List ℚ)
  | tup (xs : List ℚ)
  deriving DecidableEq, Repr

/-- Evaluation inputs: either a single value (a scalar or a coordinate
array) or a meshgrid, a sequence of per-axis coordinate arrays. -/
inductive X where
  | xv (v : V)
  | xmg (comps : List Nd)
  deriving DecidableEq, Repr

/-- Broadcast of two axis lengths: equal lengths or a length-1 axis. -/
def bdim (a b : ℕ) : Option ℕ :=
  if a = b then some a else if a = 1 then some b else if b = 1 then some a else none

/-- Broadcast of two reversed shapes (aligned from the trailing axis). -/
def bshapeRev : List ℕ → List ℕ → Option (List ℕ)
  | [], s2 => some s2
  | s1, [] => some s1
  | a :: s1, b :: s2 => do
      let d ← bdim a b
      let rest ← bshapeRev s1 s2
      pure (d :: rest)

/-- Broadcast shape of two shapes, numpy convention. -/
def bshape2 (s1 s2 : List ℕ) : Option (List ℕ) :=
  (bshapeRev s1.reverse s2.reverse).map List.reverse

/-- Broadcast shape of a list of shapes, as np.broadcast computes it. -/
def broadcastShapes : List (List ℕ) → Option (List ℕ)
  | [] => some []
  | s :: rest => do
      let r ← broadcastShapes rest
      bshape2 s r

/-- Pointwise binary numpy operation with broadcasting, modelled for the
shape combinations the embedded code exercises: scalar against anything,
0-d arrays such as np.zeros(()) against any array, and arrays of identical
shape.  Remaining combinations are outside the modelled fragment and
answer valueError; no theorem below depends on them.  Python lists and
tuples do not support numpy arithmetic and answer typeConflict. -/
def vbin (op : ℚ → ℚ → ℚ) : V → V → Except Err V
  | V.num a, V.num b => .ok (V.num (op a b))
  | V.num a, V.nd b => .ok (V.nd ⟨b.shape, b.data.map (fun y => op a y)⟩)
  | V.nd a, V.num b => .ok (V.nd ⟨a.shape, a.data.map (fun y => op y b)⟩)
  | V.nd a, V.nd b =>
      if a.shape = b.shape then
        .ok (V.nd ⟨a.shape, List.zipWith op a.data b.data⟩)
      else if a.shape = [] then
        match a.data with
        | [q] => .ok (V.nd ⟨b.shape, b.data.map (fun y => op q y)⟩)
        | _ => .error .valueError
      else if b.shape = [] then
        match b.data with
        | [q] => .ok (V.nd ⟨a.shape, a.data.map (fun y => op y q)⟩)
        | _ => .error .valueError
      else .error .valueError
  | _, _ => .error .typeConflict

/-- Multiplication of a value by a scalar coefficient, the meaning of the
statements out *= a on the closure-local variables. -/
def vscale (v : V) (c : ℚ) : Except Err V :=
  match v with
  | V.num a => .ok (V.num (a * c))
  | V.nd a => .ok (V.nd ⟨a.shape, a.data.map (fun y => y * c)⟩)
  | _ => .error .typeConflict

/-- Pointwise addition, out += tmp. -/
def vadd (v w : V) : Except Err V := vbin (fun p q => p + q) v w

/-- Pointwise multiplication, x1 * x2 and out *= tmp. -/
def vmul (v w : V) : Except Err V := vbin (fun p q => p * q) v w

/-- Pointwise division, x1 / x2 and out /= tmp (field division; the numpy
behaviour at a zero divisor, inf or nan, is outside the rational model and
no theorem below evaluates a division at a zero divisor). -/
def vdiv (v w : V) : Except Err V := vbin (fun p q => p / q) v w

/-- Exponentiation of one rational by a scalar exponent, as the ** operator
computes it; modelled for integer exponents, the only ones the claims
exercise (a fractional exponent answers valueError). -/
def qpowQ (q p : ℚ) : Except Err ℚ :=
  if p.den = 1 then .ok (q ^ p.num) else .error .valueError

/-- Pointwise exponentiation by a scalar, v ** p and out **= p. -/
def vpow (v : V) (p : ℚ) : Except Err V :=
  match v with
  | V.num a => (qpowQ a p).map V.num
  | V.nd a => do
      let l ← a.data.mapM (fun q => qpowQ q p)
      .ok (V.nd ⟨a.shape, l⟩)
  | _ => .error .typeConflict

/-- Shape attribute lookup: ndarrays and numpy scalars expose a shape, a
Python list or tuple does not (the source would raise AttributeError
there, folded into the shape comparison of the modelled fragment). -/
def vshape : V → Option (List ℕ)
  | V.num _ => some []
  | V.nd a => some a.shape
  | _ => none

/-- Extraction out[0] used by the scalar-unwrapping return of the call
protocol, modelled for one-dimensional arrays and lists. -/
def vGetZero : V → Except Err V
  | V.nd a =>
      match a.shape, a.data with
      | [_], q :: _ => .ok (V.num q)
      | _, _ => .error .valueError
  | V.plist xs =>
      match xs with
      | q :: _ => .ok (V.num q)
      | [] => .error .valueError
  | _ => .error .typeConflict

/-- Allocation np.empty(shape): the storage is uninitialized in numpy; it is
modelled as zeros, and every evaluation path below overwrites the buffer
completely before reading it. -/
def npEmpty (s : List ℕ) : Nd := ⟨s, List.replicate s.prod 0⟩

/-- Assignment out[i] = value into a numpy array slot.  A numeric value is
stored; numpy of the era this code targets also unwraps a size-one array
into the scalar slot and rejects any larger array (ValueError: setting an
array element with a sequence). -/
def ndSet (a : Nd) (i : ℕ) (val : V) : Except Err Nd :=
  match val with
  | V.num q => .ok ⟨a.shape, a.data.set i q⟩
  | V.nd b =>
      match b.data with
      | [q] => .ok ⟨a.shape, a.data.set i q⟩
      | _ => .error .valueError
  | _ => .error .valueError

/-- Modelled from the spec: is_valid_input_array lives in
odl.util.vectorization, which is not under src.  Spec sections 4.2 and 4.3:
valid coordinate arrays for a d-dimensional domain are (d, N) arrays, and
for d = 1 also one-dimensional arrays. -/
def is_valid_input_array (x : X) (d : ℕ) : Bool :=
  match x with
  | X.xv (V.nd a) =>
      match a.shape with
      | [_] => d == 1
      | [d2, _] => d2 == d
      | _ => false
  | _ => false

/-- Modelled from the spec: is_valid_input_meshgrid lives in
odl.util.vectorization, which is not under src.  Spec glossary and section
4.2: a meshgrid is a length-d sequence of per-axis coordinate arrays that
can be broadcast against each other. -/
def is_valid_input_meshgrid (x : X) (d : ℕ) : Bool :=
  match x with
  | X.xmg comps =>
      comps.length == d && (broadcastShapes (comps.map Nd.shape)).isSome
  | _ => false

/-- Modelled from the spec: out_shape_from_array lives in
odl.util.vectorization, which is not under src.  Spec section 4.3: the
expected output shape of a coordinate array is derived from its trailing
axis length, or for a one-dimensional array is its own shape. -/
def out_shape_from_array (a : Nd) : List ℕ :=
  match a.shape with
  | [n] => [n]
  | _ :: n :: _ => [n]
  | [] => []

/-- Modelled from the spec: out_shape_from_meshgrid lives in
odl.util.vectorization, which is not under src.  The expected output shape
of a meshgrid is the broadcast shape of its components. -/
def out_shape_from_meshgrid (comps : List Nd) : Option (List ℕ) :=
  broadcastShapes (comps.map Nd.shape)

/-- Shape of np.broadcast(*x): star-unpacking an ndarray iterates over its
first axis, so a (d, N) array broadcasts its d rows to (N,), a
one-dimensional array broadcasts its scalar entries to the empty shape,
and a meshgrid broadcasts its components. -/
def broadcastUnpack : X → Except Err (List ℕ)
  | X.xv (V.nd a) =>
      match a.shape with
      | [_] => .ok []
      | [_, n] => .ok [n]
      | _ => .error .valueError
  | X.xmg comps =>
      match broadcastShapes (comps.map Nd.shape) with
      | some s => .ok s
      | none => .error .valueError
  | X.xv (V.num _) => .ok []
  | _ => .error .valueError

/-- Iteration over x.T, one point per entry (fspace.py line 167): the
transpose of a (d, N) array yields its N columns as one-dimensional
arrays, and the transpose of a one-dimensional array yields its entries as
scalars. -/
def colAt (d n j : ℕ) (data : List ℚ) : List ℚ :=
  (List.range d).map (fun i => data.getD (i * n + j) 0)

/-- Points delivered by enumerate(x.T). -/
def iterT (a : Nd) : Except Err (List V) :=
  match a.shape with
  | [_] => .ok (a.data.map V.num)
  | [d, n] => .ok ((List.range n).map (fun j => V.nd ⟨[d], colAt d n j a.data⟩))
  | _ => .error .valueError

/-- Sequential fill loop of _vect_wrapper_array (lines 167-168):
out[i] = func(pt) over the enumerated points, into an ndarray buffer. -/
def fillLoop (func : V → Except Err V) : List V → ℕ → Nd → Except Err Nd
  | [], _, out => .ok out
  | pt :: rest, i, out => do
      let v ← func pt
      let out2 ← ndSet out i v
      fillLoop func rest (i + 1) out2

/-- Sequential fill loop into a plain Python list (dtype is None); the model
restricts list entries to numbers, which is all the claims exercise. -/
def fillLoopList (func : V → Except Err V) : List V → ℕ → List ℚ → Except Err (List ℚ)
  | [], _, out => .ok out
  | pt :: rest, i, out => do
      let v ← func pt
      match v with
      | V.num q => fillLoopList func rest (i + 1) (out.set i q)
      | _ => .error .valueError

/-- Cartesian product in itertools.product order (rightmost factor varies
fastest), used by the meshgrid fill loop. -/
def cartProd : List (List ℚ) → List (List ℚ)
  | [] => [[]]
  | v :: rest => (v.map (fun q => (cartProd rest).map (fun t => q :: t))).flatten

/-- The wrapper _vect_wrapper_array of the vectorize decorator (lines
158-169).  With no output buffer it allocates once, an ndarray of the
inferred shape when a dtype was given and a list [0] * out_shape[0]
otherwise, then fills sequentially with out[i] = func(pt). -/
def vect_wrapper_array (dtype : Bool) (func : V → Except Err V) (a : Nd)
    (out : Option V) : Except Err V := do
  let pts ← iterT a
  match out with
  | none =>
      let os := out_shape_from_array a
      if dtype then
        let r ← fillLoop func pts 0 (npEmpty os)
        .ok (V.nd r)
      else
        let r ← fillLoopList func pts 0 (List.replicate (os.headD 0) 0)
        .ok (V.plist r)
  | some (V.nd o) => (fillLoop func pts 0 o).map V.nd
  | some (V.plist o) => (fillLoopList func pts 0 o).map V.plist
  | some _ => .error .typeConflict

/-- Flat fill loop of _vect_wrapper_meshgrid (lines 181-182):
out.flat[i] = func(pt) over the cartesian product of the coordinate
vectors.  The data of the model array is its flat view. -/
def fillFlat (func : V → Except Err V) : List (List ℚ) → ℕ → Nd → Except Err Nd
  | [], _, out => .ok out
  | pt :: rest, i, out => do
      let v ← func (V.tup pt)
      let out2 ← ndSet out i v
      fillFlat func rest (i + 1) out2

/-- The wrapper _vect_wrapper_meshgrid (lines 171-183).  Modelled from the
spec for the helpers meshgrid_input_order and vecs_from_meshgrid (both
live in odl.util.vectorization, not under src): the per-axis coordinate
vectors are the flattened components and the fill traverses their
cartesian product in the flat order of the output; the Fortran-order
variant differs only in memory layout, which the value model does not
represent. -/
def vect_wrapper_meshgrid (dtype : Bool) (func : V → Except Err V)
    (comps : List Nd) (out : Option V) : Except Err V := do
  let pts := cartProd (comps.map Nd.data)
  match out with
  | none =>
      match out_shape_from_meshgrid comps with
      | none => .error .valueError
      | some os =>
          if dtype then
            let r ← fillFlat func pts 0 (npEmpty os)
            .ok (V.nd r)
          else
            let r ← fillLoopList func (pts.map V.tup) 0 (List.replicate (os.headD 0) 0)
            .ok (V.plist r)
  | some (V.nd o) => (fillFlat func pts 0 o).map V.nd
  | some _ => .error .typeConflict

/-- The dispatcher _vect_wrapper (lines 185-203): detect the dimension from
the input, then route to the array or meshgrid wrapper.  An ndarray of
more than two axes raises ValueError; calling len on a scalar raises
TypeError (dim = len(x) at line 196); any remaining input raises the
TypeError of line 203. -/
def vect_wrapper_core (dtype : Bool) (func : V → Except Err V) (x : X)
    (out : Option V) : Except Err V :=
  match x with
  | X.xv (V.nd a) =>
      match a.shape with
      | [_] =>
          if is_valid_input_array x 1 then vect_wrapper_array dtype func a out
          else .error .typeConflict
      | [d, _] =>
          if is_valid_input_array x d then vect_wrapper_array dtype func a out
          else .error .typeConflict
      | _ => .error .valueError
  | X.xv (V.plist _) => .error .typeConflict
  | X.xv _ => .error .typeConflict
  | X.xmg comps =>
      if is_valid_input_meshgrid (X.xmg comps) comps.length then
        vect_wrapper_meshgrid dtype func comps out
      else .error .typeConflict

/-- Public form vect_wrapper_no_out (lines 205-210): outarg none. -/
def vect_wrapper_no_out (dtype : Bool) (func : V → Except Err V) (x : X) :
    Except Err V :=
  vect_wrapper_core dtype func x none

/-- Public form vect_wrapper_pos_out (lines 212-214): outarg positional. -/
def vect_wrapper_pos_out (dtype : Bool) (func : V → Except Err V) (x : X)
    (out : V) : Except Err V :=
  vect_wrapper_core dtype func x (some out)

/-- Public form vect_wrapper_opt_out (lines 216-218): outarg optional. -/
def vect_wrapper_opt_out (dtype : Bool) (func : V → Except Err V) (x : X)
    (out : Option V) : Except Err V :=
  vect_wrapper_core dtype func x out

/-- State of a FunctionSetVector (lines 347-405): the two evaluation
closures, the calling-convention flags derived at construction, and the
vectorized flag.  The owning space is identified by a tag, standing for
the domain/range pair held by classes outside src.  An in-place closure
takes the output buffer and returns its final contents. -/
structure Vec where
  space : ℕ
  call_out_of_place : X → Except Err V
  call_in_place : X → V → Except Err V
  call_has_out : Bool
  call_out_optional : Bool
  vectorized : Bool

/-- Function _out_of_place_not_impl (lines 46-48). -/
def out_of_place_not_impl : X → Except Err V := fun _ => .error .notImplemented

/-- Modelled from the spec: the Set contract of spec section 6 (the Set
classes live in odl.set, not under src): dimensionality, the single
membership test behind the Python operator in, element conversion
domain.element(x) producing the coordinates of a point (raising TypeError
or ValueError when the input cannot be converted), and the optional bulk
membership test contains_all. -/
structure SetM where
  ndim : ℕ
  isElement : X → Bool
  toElement : X → Except Err (List ℚ)
  hasContainsAll : Bool
  containsAll : X → Bool

/-- Classification step of __call__ (lines 499-507), with the membership
test written exactly as line 501 has it: only an input that is not in the
domain undergoes the element conversion to a (d, 1) column array, and a
failed conversion sets the scalar flag to False.  An input that is in the
domain leaves the local scalar_out unbound, represented by none. -/
def classifyScalar (dom : SetM) (x0 : X) (outNone : Bool) : X × Option Bool :=
  if dom.isElement x0 then (x0, none)
  else
    match dom.toElement x0 with
    | .ok coords => (X.xv (V.nd ⟨[coords.length, 1], coords⟩), some outNone)
    | .error _ => (x0, some false)

/-- Input validation and output-shape inference of __call__ (lines
509-531): a valid coordinate array yields the trailing-axis shape, with
the one-dimensional domain squeezing a (1, N) array to (N,) and taking
its own shape; a valid meshgrid yields the broadcast shape of its
components, a one-dimensional domain unwrapping the single component;
anything else raises the TypeError of lines 527-531. -/
def inferShape (ndim : ℕ) (x : X) : Except Err (X × List ℕ) :=
  if is_valid_input_array x ndim then
    match x with
    | X.xv (V.nd a) =>
        if ndim = 1 then
          match a.shape with
          | [_, n] => .ok (X.xv (V.nd ⟨[n], a.data⟩), [n])
          | _ => .ok (x, a.shape)
        else .ok (x, [a.shape.getD 1 0])
    | _ => .error .invalidInput
  else if is_valid_input_meshgrid x ndim then
    match x with
    | X.xmg comps =>
        if ndim = 1 then
          match comps with
          | c :: _ => .ok (X.xv (V.nd c), c.shape)
          | [] => .error .invalidInput
        else
          match broadcastShapes (comps.map Nd.shape) with
          | some s => .ok (x, s)
          | none => .error .invalidInput
    | _ => .error .invalidInput
  else .error .invalidInput

/-- Return step of __call__ (line 569): out[0] if scalar_out else out; a
read of the unbound local raises NameError. -/
def finalReturn : Option Bool → V → Except Err V
  | none, _ => .error .nameError
  | some true, out => vGetZero out
  | some false, out => .ok out

/-- Protocol FunctionSetVector.__call__ (lines 420-569).  The steps follow
the source line by line: the contains_all capability check (472-475), the
classification of lines 499-507 with the inverted membership test of line
501 as written, shape inference (509-531), the domain bounds check
(533-536), evaluation, shape validation with the exemption of an expected
shape (1,) (line 541), range bounds check, and the scalar-unwrapping
return (569).  Modelled from the spec for lines 538-567: in the source the
range check of lines 545-549 is indented behind the raise of line 542 (an
unreachable position that does not even parse) and the else of line 550 is
left attached to the shape test of line 541; per the spec design note of
section 9 and the step comment at lines 477-497 of the source itself, the
range check is performed after out-of-place evaluation and the else
branch belongs to the out-is-None test. -/
def FunctionSetVector.call (dom ran : SetM) (f : Vec) (x0 : X)
    (out0 : Option V) (vec_bounds_check : Bool) : Except Err V :=
  if vec_bounds_check && !dom.hasContainsAll then .error .missingCapability
  else
    let cls := classifyScalar dom x0 out0.isNone
    match inferShape dom.ndim cls.1 with
    | .error e => .error e
    | .ok (x, out_shape) =>
        if vec_bounds_check && !dom.containsAll x then .error .outOfDomain
        else
          match out0 with
          | none =>
              match f.call_out_of_place x with
              | .error e => .error e
              | .ok out =>
                  if out_shape ≠ [1] ∧ vshape out ≠ some out_shape then
                    .error .shapeMismatch
                  else if vec_bounds_check && !ran.containsAll (X.xv out) then
                    .error .outOfRange
                  else finalReturn cls.2 out
          | some ov =>
              if f.vectorized then
                match ov with
                | V.nd o =>
                    if o.shape ≠ out_shape then .error .shapeMismatch
                    else
                      match f.call_in_place x (V.nd o) with
                      | .error e => .error e
                      | .ok res =>
                          if vec_bounds_check && !ran.containsAll (X.xv res) then
                            .error .outOfRange
                          else finalReturn cls.2 res
                | _ => .error .typeConflict
              else .error .invalidUsage

/-- Membership of one rational in a closed interval. -/
def inIv (lo hi q : ℚ) : Bool := lo ≤ q && q ≤ hi

/-- Bulk membership of every coordinate of an input in an interval. -/
def allInIv (lo hi : ℚ) : X → Bool
  | X.xv (V.num q) => inIv lo hi q
  | X.xv (V.nd a) => a.data.all (inIv lo hi)
  | X.xv (V.plist xs) => xs.all (inIv lo hi)
  | X.xv (V.tup xs) => xs.all (inIv lo hi)
  | X.xmg comps => comps.all (fun c => c.data.all (inIv lo hi))

/-- Modelled from the spec: the one-dimensional Interval domain of the
concrete scenario in spec section 8 (odl.set.domain is not under src).
Its elements are scalars within the bounds; element conversion accepts
exactly those, and contains_all checks every coordinate. -/
def interval (lo hi : ℚ) : SetM where
  ndim := 1
  isElement := fun x =>
    match x with
    | X.xv (V.num q) => inIv lo hi q
    | _ => false
  toElement := fun x =>
    match x with
    | X.xv (V.num q) => if inIv lo hi q then .ok [q] else .error .valueError
    | _ => .error .typeConflict
  hasContainsAll := true
  containsAll := allInIv lo hi

/-- Modelled from the spec: the RealNumbers range (odl.set.sets is not
under src); every value of the rational model is a member. -/
def realNumbers : SetM where
  ndim := 1
  isElement := fun _ => true
  toElement := fun _ => .error .typeConflict
  hasContainsAll := true
  containsAll := fun _ => true

/-- Variant of the real line without the bulk membership capability, for
the MissingCapability path (lines 472-475). -/
def realNumbersNoBulk : SetM where
  ndim := 1
  isElement := fun _ => true
  toElement := fun _ => .error .typeConflict
  hasContainsAll := false
  containsAll := fun _ => true

/-- Modelled from the spec: the two-dimensional Rectangle domain
(odl.set.domain is not under src), with pair elements and coordinatewise
bulk membership. -/
def rect (lo hi : ℚ) : SetM where
  ndim := 2
  isElement := fun x =>
    match x with
    | X.xv (V.tup xs) => xs.length == 2 && xs.all (inIv lo hi)
    | _ => false
  toElement := fun x =>
    match x with
    | X.xv (V.tup xs) =>
        if xs.length == 2 && xs.all (inIv lo hi) then .ok xs
        else .error .valueError
    | _ => .error .typeConflict
  hasContainsAll := true
  containsAll := allInIv lo hi

/-- Function _default_in_place (lines 51-54), as installed through the
ip_wrapper of lines 389-395, which binds func := self: out[:] = func(x)
evaluates self through the full __call__ protocol (FunctionSetVector.call
below) with out=None, using the default bounds checking because line 471
already popped vec_bounds_check from the keyword arguments of the outer
call.  The re-entrant call reads only the out-of-place closure, the
domain and the range of self (out is None inside it), fields on which
the base vector passed here agrees with the finished object, so it
stands for self exactly.  The full slice assignment then stores the
result, broadcast into the buffer when the result is a scalar and
element-wise when it is an array of the buffer's shape. -/
def default_in_place (dom ran : SetM) (fvec : Vec) (x : X) (out : V) :
    Except Err V := do
  let v ← FunctionSetVector.call dom ran fvec x none true
  match out, v with
  | V.nd o, V.nd b =>
      if b.shape = o.shape then .ok (V.nd ⟨o.shape, b.data⟩)
      else .error .valueError
  | V.nd o, V.num q => .ok (V.nd ⟨o.shape, List.replicate o.data.length q⟩)
  | _, _ => .error .typeConflict

/-- Modelled from the spec: _dispatch_call_args lives in
odl.operator.operator, which is not under src.  The runtime signature
inspection of lines 367-382 is replaced by this tag over the recognized
calling conventions of spec section 4.1: out-of-place only f(x), dual use
f(x, out=None), and in-place only f(x, out). -/
inductive Callable where
  | oopOnly (f : X → Except Err V)
  | dualUse (f : X → Option V → Except Err V)
  | ipOnly (f : X → V → Except Err V)

/-- Closure wiring of FunctionSetVector.__init__ (lines 384-405).  With no
output parameter the in-place closure is the _default_in_place wrapper
with func bound to self by the ip_wrapper of line 392, and the
out-of-place closure is the callable; a dual-use callable serves as both
closures; with a mandatory output parameter the out-of-place closure is
_out_of_place_not_impl.  The self reference captured by the wrapper is
represented by the base vector carrying the raw out-of-place callable:
the re-entrant __call__ made with out=None reads no other evaluation
field of self, so the two are indistinguishable there.  The vectorized
flag records the attribute initialization performed by base classes
outside src, and the domain and range are the attributes the Operator
base class sets from the function set (Modelled from the spec, section 3
invariant). -/
def mkFunctionSetVector (sp : ℕ) (dom ran : SetM) (fc : Callable)
    (vect : Bool) : Vec :=
  match fc with
  | .oopOnly f =>
      let base : Vec := ⟨sp, f, fun _ _ => .error .typeConflict, false, false, vect⟩
      ⟨sp, f, default_in_place dom ran base, false, false, vect⟩
  | .dualUse f =>
      ⟨sp, fun x => f x none, fun x out => f x (some out), true, true, vect⟩
  | .ipOnly f =>
      ⟨sp, out_of_place_not_impl, f, true, false, vect⟩

/-- Function _default_out_of_place (lines 57-69), as installed through the
oop_wrapper of lines 1068-1074, which binds func := self: the output
shape is inferred from the input against func.domain.ndim (the domain of
self), a buffer of that shape is allocated with np.empty and the field
dtype (the dtype affects only the storage type, which the rational value
model does not distinguish), and func(x, out=out) evaluates self through
the full __call__ protocol with the allocated buffer, using the default
bounds checking because line 471 already popped vec_bounds_check from
the keyword arguments of the outer call.  Returning out after that
mutating call returns the protocol's buffer result (the scalar_out flag
of the re-entrant call is always False on its reachable paths, since its
out is not None).  The re-entrant call reads only the in-place closure,
the vectorized flag, the domain and the range of self, fields on which
the base vector passed here agrees with the finished object, so it
stands for self exactly. -/
def default_out_of_place (dom ran : SetM) (fvec : Vec) (x : X) :
    Except Err V :=
  if is_valid_input_array x dom.ndim then
    match x with
    | X.xv (V.nd a) =>
        FunctionSetVector.call dom ran fvec x
          (some (V.nd (npEmpty (out_shape_from_array a)))) true
    | _ => .error .typeConflict
  else if is_valid_input_meshgrid x dom.ndim then
    match x with
    | X.xmg comps =>
        match out_shape_from_meshgrid comps with
        | some os =>
            FunctionSetVector.call dom ran fvec x (some (V.nd (npEmpty os))) true
        | none => .error .typeConflict
    | _ => .error .typeConflict
  else .error .typeConflict

/-- Closure wiring of FunctionSpaceVector.__init__ (lines 1059-1074): after
the FunctionSetVector wiring, a mandatory-output callable gains the
default out-of-place evaluator with func bound to self by the
oop_wrapper of line 1071.  The self reference is represented by the
underlying set vector: the re-entrant __call__ made with the allocated
buffer reads only fields on which the two agree (the raw in-place
closure and the vectorized flag; it never reads the out-of-place closure
being replaced here). -/
def mkFunctionSpaceVector (sp : ℕ) (dom ran : SetM) (fc : Callable)
    (vect : Bool) : Vec :=
  let v := mkFunctionSetVector sp dom ran fc vect
  if v.call_has_out && !v.call_out_optional then
    { v with call_out_of_place := default_out_of_place dom ran v }
  else v

/-- Conditional scaling of the guarded statements if c != 1: out *= c of the
_lincomb closures, skipping the multiplication when c is exactly 1. -/
def scaleIf (c : ℚ) (v : V) : Except Err V :=
  if c ≠ 1 then vscale v c else .ok v

/-- Out-of-place closure synthesized by _lincomb (lines 802-823), with the
fast paths that skip a multiplication when a coefficient is 0 or 1. -/
def lincomb_call_out_of_place (a b : ℚ) (x1oop x2oop : X → Except Err V)
    (x : X) : Except Err V :=
  if a = 0 ∧ b ≠ 0 then do
    let out ← x2oop x
    scaleIf b out
  else if b = 0 then do
    let out ← x1oop x
    scaleIf a out
  else do
    let out ← x1oop x
    let out2 ← scaleIf a out
    let tmp ← x2oop x
    let tmp2 ← scaleIf b tmp
    vadd out2 tmp2

/-- In-place closure synthesized by _lincomb (lines 825-849); when both
coefficients are nonzero it evaluates the second operand into a temporary
buffer np.empty_like(out) before combining. -/
def lincomb_call_in_place (a b : ℚ) (x1ip x2ip : X → V → Except Err V)
    (x : X) (out : V) : Except Err V :=
  match out with
  | V.nd o =>
      if a = 0 ∧ b = 0 then vscale (V.nd o) 0
      else if a = 0 ∧ b ≠ 0 then do
        let r ← x2ip x (V.nd o)
        scaleIf b r
      else if b = 0 ∧ a ≠ 0 then do
        let r ← x1ip x (V.nd o)
        scaleIf a r
      else do
        let tmp := V.nd (npEmpty o.shape)
        let r1 ← x1ip x (V.nd o)
        let r2 ← x2ip x tmp
        let r3 ← scaleIf a r1
        let r4 ← scaleIf b r2
        vadd r3 r4
  | _ => .error .typeConflict

/-- Promotion of a non-vectorized operand closure pair, exactly as lines
795-800 write it: the out-of-place closure is wrapped through the
vectorize decorator, and the in-place closure is then built by wrapping
the freshly reassigned out-of-place closure a second time (the source
passes the already wrapped x1_call_oop to the second vectorize call). -/
def promote_oop (oop0 : X → Except Err V) : X → Except Err V :=
  vect_wrapper_no_out true (fun v => oop0 (X.xv v))

/-- In-place half of the promotion, wrapping the promoted out-of-place
closure (source line 797 and its two copies at 888 and 936). -/
def promote_ip (oop1 : X → Except Err V) : X → V → Except Err V :=
  vect_wrapper_pos_out true (fun v => oop1 (X.xv v))

/-- Operator FunctionSpace._lincomb (lines 778-868): read the operand
closures into locals, promote a non-vectorized operand when the other is
vectorized, synthesize the combined closures and install them on out.  In
the non-vectorized case line 863 installs the raw four-argument
_default_in_place function as the in-place closure without binding its
func argument, so invoking that closure raises a TypeError; it is
modelled as a typeConflict-raising closure. -/
def lincombVec (a : ℚ) (x1 : Vec) (b : ℚ) (x2 : Vec) (out : Vec) : Vec :=
  let x1oop0 := x1.call_out_of_place
  let x1ip0 := x1.call_in_place
  let x2oop0 := x2.call_out_of_place
  let x2ip0 := x2.call_in_place
  let lincomb_vect := x1.vectorized || x2.vectorized
  let x1oop := if lincomb_vect && !x1.vectorized then promote_oop x1oop0 else x1oop0
  let x1ip := if lincomb_vect && !x1.vectorized then promote_ip x1oop else x1ip0
  let x2oop := if lincomb_vect && !x2.vectorized then promote_oop x2oop0 else x2oop0
  let x2ip := if lincomb_vect && !x2.vectorized then promote_ip x2oop else x2ip0
  if lincomb_vect then
    { out with
        call_out_of_place := lincomb_call_out_of_place a b x1oop x2oop
        call_in_place := lincomb_call_in_place a b x1ip x2ip
        call_has_out := true
        call_out_optional := true
        vectorized := true }
  else
    { out with
        call_out_of_place := lincomb_call_out_of_place a b x1oop x2oop
        call_in_place := fun _ _ => .error .typeConflict
        call_has_out := false
        call_out_optional := false
        vectorized := false }

/-- Out-of-place closure synthesized by _multiply (lines 893-895). -/
def product_call_out_of_place (x1oop x2oop : X → Except Err V) (x : X) :
    Except Err V := do
  let v1 ← x1oop x
  let v2 ← x2oop x
  vmul v1 v2

/-- In-place closure synthesized by _multiply (lines 897-903). -/
def product_call_in_place (x1ip x2ip : X → V → Except Err V) (x : X)
    (out : V) : Except Err V :=
  match out with
  | V.nd o => do
      let tmp := V.nd (npEmpty o.shape)
      let r1 ← x1ip x (V.nd o)
      let r2 ← x2ip x tmp
      vmul r1 r2
  | _ => .error .typeConflict

/-- Operator FunctionSpace._multiply (lines 870-922), with the same operand
reads, promotion and installation pattern as _lincomb. -/
def multiplyVec (x1 x2 out : Vec) : Vec :=
  let x1oop0 := x1.call_out_of_place
  let x1ip0 := x1.call_in_place
  let x2oop0 := x2.call_out_of_place
  let x2ip0 := x2.call_in_place
  let product_vect := x1.vectorized || x2.vectorized
  let x1oop := if product_vect && !x1.vectorized then promote_oop x1oop0 else x1oop0
  let x1ip := if product_vect && !x1.vectorized then promote_ip x1oop else x1ip0
  let x2oop := if product_vect && !x2.vectorized then promote_oop x2oop0 else x2oop0
  let x2ip := if product_vect && !x2.vectorized then promote_ip x2oop else x2ip0
  if product_vect then
    { out with
        call_out_of_place := product_call_out_of_place x1oop x2oop
        call_in_place := product_call_in_place x1ip x2ip
        call_has_out := true
        call_out_optional := true
        vectorized := true }
  else
    { out with
        call_out_of_place := product_call_out_of_place x1oop x2oop
        call_in_place := fun _ _ => .error .typeConflict
        call_has_out := false
        call_out_optional := false
        vectorized := false }

/-- Out-of-place closure synthesized by _divide (lines 941-943). -/
def quotient_call_out_of_place (x1oop x2oop : X → Except Err V) (x : X) :
    Except Err V := do
  let v1 ← x1oop x
  let v2 ← x2oop x
  vdiv v1 v2

/-- In-place closure synthesized by _divide (lines 945-951). -/
def quotient_call_in_place (x1ip x2ip : X → V → Except Err V) (x : X)
    (out : V) : Except Err V :=
  match out with
  | V.nd o => do
      let tmp := V.nd (npEmpty o.shape)
      let r1 ← x1ip x (V.nd o)
      let r2 ← x2ip x tmp
      vdiv r1 r2
  | _ => .error .typeConflict

/-- Operator FunctionSpace._divide (lines 924-970). -/
def divideVec (x1 x2 out : Vec) : Vec :=
  let x1oop0 := x1.call_out_of_place
  let x1ip0 := x1.call_in_place
  let x2oop0 := x2.call_out_of_place
  let x2ip0 := x2.call_in_place
  let quotient_vect := x1.vectorized || x2.vectorized
  let x1oop := if quotient_vect && !x1.vectorized then promote_oop x1oop0 else x1oop0
  let x1ip := if quotient_vect && !x1.vectorized then promote_ip x1oop else x1ip0
  let x2oop := if quotient_vect && !x2.vectorized then promote_oop x2oop0 else x2oop0
  let x2ip := if quotient_vect && !x2.vectorized then promote_ip x2oop else x2ip0
  if quotient_vect then
    { out with
        call_out_of_place := quotient_call_out_of_place x1oop x2oop
        call_in_place := quotient_call_in_place x1ip x2ip
        call_has_out := true
        call_out_optional := true
        vectorized := true }
  else
    { out with
        call_out_of_place := quotient_call_out_of_place x1oop x2oop
        call_in_place := fun _ _ => .error .typeConflict
        call_has_out := false
        call_out_optional := false
        vectorized := false }

/-- Pointwise square x *= x on an array. -/
def ndSq (a : Nd) : Nd := ⟨a.shape, List.zipWith (fun p q => p * q) a.data a.data⟩

/-- Pointwise in-place product x *= tmp of two same-shape arrays. -/
def ndMulSame (a b : Nd) : Nd := ⟨a.shape, List.zipWith (fun p q => p * q) a.data b.data⟩

/-- Recursion ipow_posint (lines 985-997), the in-place binary
exponentiation on an ndarray: n = 1 returns the array unchanged, an even n
squares and recurses on n / 2, an odd n saves a copy, squares, recurses on
n // 2 and multiplies the copy back.  The source recursion never receives
n = 0 (its callers require p >= 1; at 0 the Python recursion would not
terminate), so the value at 0 is arbitrary and chosen as the array
itself. -/
def ipow_posint (a : Nd) (n : ℕ) : Nd :=
  if n = 1 then a
  else if h2 : n % 2 = 0 then
    if h0 : n = 0 then a
    else ipow_posint (ndSq a) (n / 2)
  else ndMulSame (ipow_posint (ndSq a) (n / 2)) a
termination_by n
decreasing_by
  · exact Nat.div_lt_self (Nat.pos_of_ne_zero h0) (by omega)
  · exact Nat.div_lt_self (by omega) (by omega)

/-- Function pow_posint (lines 977-983): an ndarray is copied and handed to
the in-place recursion, anything else is computed by the ** operator. -/
def pow_posint (v : V) (n : ℕ) : Except Err V :=
  match v with
  | V.nd a => .ok (V.nd (ipow_posint a n))
  | V.num q => .ok (V.num (q ^ n))
  | _ => .error .typeConflict

/-- Out-of-place closure synthesized by _scalar_power (lines 999-1004): an
integer exponent p >= 1 goes through binary exponentiation, anything else
through the ** operator. -/
def power_call_out_of_place (p : ℚ) (x_call_oop : X → Except Err V) (x : X) :
    Except Err V := do
  let v ← x_call_oop x
  if p.den = 1 ∧ 1 ≤ p then pow_posint v p.num.toNat else vpow v p

/-- In-place closure synthesized by _scalar_power (lines 1006-1013):
evaluate in place, then exponentiate the buffer, by the in-place binary
recursion for an integer p >= 1 (the buffer handed to it is an ndarray on
all modelled paths) and by out **= p otherwise. -/
def power_call_in_place (p : ℚ) (x_call_ip : X → V → Except Err V) (x : X)
    (out : V) : Except Err V := do
  let r ← x_call_ip x out
  if p.den = 1 ∧ 1 ≤ p then
    match r with
    | V.nd a => .ok (V.nd (ipow_posint a p.num.toNat))
    | _ => .error .typeConflict
  else vpow r p

/-- Operator FunctionSpace._scalar_power (lines 972-1032).  Line 1022 reads
self.vectorized on the space object; that attribute is resolved by base
classes outside src, so the resolved value enters as the parameter
spaceVect and the theorems below hold for both values.  Line 1027
installs the raw _default_in_place exactly as line 863 does. -/
def scalar_powerVec (spaceVect : Bool) (xv : Vec) (p : ℚ) (out : Vec) : Vec :=
  let x_call_oop := xv.call_out_of_place
  let x_call_ip := xv.call_in_place
  if spaceVect then
    { out with
        call_out_of_place := power_call_out_of_place p x_call_oop
        call_in_place := power_call_in_place p x_call_ip
        call_has_out := true
        call_out_optional := true
        vectorized := true }
  else
    { out with
        call_out_of_place := power_call_out_of_place p x_call_oop
        call_in_place := fun _ _ => .error .typeConflict
        call_has_out := false
        call_out_optional := false
        vectorized := false }

/-- State of a FunctionSpace (lines 649-671): a space tag, the domain and
the range as Set models (line 666 fixes the range of a real space to
RealNumbers), the field selector (real or complex, deciding the dtype of
lines 711, 742, 793), and the value the attribute read self.vectorized of
line 1022 resolves to (resolved by base classes outside src). -/
structure FSpace where
  tag : ℕ
  dom : SetM
  ran : SetM
  isComplex : Bool
  svect : Bool

/-- Closure zero_vec (lines 718-726): zeros of the shape of
np.broadcast(*x); the meshgrid-order branch of lines 720-723 affects only
the memory order of the result, which the value model does not
represent. -/
def zero_vec_closure (x : X) : Except Err V := do
  let s ← broadcastUnpack x
  .ok (V.nd ⟨s, List.replicate s.prod 0⟩)

/-- Closure one_vec (lines 749-757). -/
def one_vec_closure (x : X) : Except Err V := do
  let s ← broadcastUnpack x
  .ok (V.nd ⟨s, List.replicate s.prod 1⟩)

/-- Method FunctionSet.element (lines 267-299).  A missing callable raises
the TypeError of line 294.  With vectorized False, line 297 calls
vectorize(fcall, outarg='optional'), which passes fcall as the dtype
argument and returns the undecorated inner decorator; the stored callable
is therefore that decorator function, and evaluating the resulting vector
yields a function object instead of a value, modelled by a
typeConflict-raising closure. -/
def FunctionSet.element (sp : ℕ) (dom ran : SetM) (fc : Option Callable)
    (vect : Bool) : Except Err Vec :=
  match fc with
  | none => .error .typeConflict
  | some f =>
      if vect then .ok (mkFunctionSetVector sp dom ran f true)
      else .ok (mkFunctionSetVector sp dom ran
        (.oopOnly (fun _ => .error .typeConflict)) false)

/-- Method FunctionSpace.zero (lines 699-729): wraps the direct zero
closure, through FunctionSpace.element and the space vector
constructor. -/
def FunctionSpace.zero (S : FSpace) (vect : Bool) : Vec :=
  if vect then mkFunctionSpaceVector S.tag S.dom S.ran (.oopOnly zero_vec_closure) true
  else mkFunctionSpaceVector S.tag S.dom S.ran
    (.oopOnly (fun _ => .error .typeConflict)) false

/-- Method FunctionSpace.one (lines 731-760). -/
def FunctionSpace.one (S : FSpace) (vect : Bool) : Vec :=
  if vect then mkFunctionSpaceVector S.tag S.dom S.ran (.oopOnly one_vec_closure) true
  else mkFunctionSpaceVector S.tag S.dom S.ran
    (.oopOnly (fun _ => .error .typeConflict)) false

/-- Method FunctionSpace.element (lines 673-697): a missing callable yields
the zero vector, otherwise the callable is wrapped as a space vector. -/
def FunctionSpace.element (S : FSpace) (fc : Option Callable) (vect : Bool) :
    Except Err Vec :=
  match fc with
  | none => .ok (FunctionSpace.zero S vect)
  | some f =>
      if vect then .ok (mkFunctionSpaceVector S.tag S.dom S.ran f true)
      else .ok (mkFunctionSpaceVector S.tag S.dom S.ran
        (.oopOnly (fun _ => .error .typeConflict)) false)

/-- Method FunctionSetVector.assign (lines 571-586): after the membership
check against the space of self, the evaluation closures, both
calling-convention flags and the vectorized flag of other are copied onto
self. -/
def assignVec (selfv other : Vec) : Except Err Vec :=
  if other.space ≠ selfv.space then .error .typeConflict
  else .ok { selfv with
      call_in_place := other.call_in_place
      call_out_of_place := other.call_out_of_place
      call_has_out := other.call_has_out
      call_out_optional := other.call_out_optional
      vectorized := other.vectorized }

/-- Method FunctionSetVector.copy (lines 588-592) for a vector of a plain
FunctionSet: result = self.space.element(); result.assign(self).  The
domain and range of the space enter as parameters, as element passes
them on to the constructor. -/
def FunctionSetVector.copy (dom ran : SetM) (v : Vec) : Except Err Vec := do
  let result ← FunctionSet.element v.space dom ran none true
  assignVec result v

/-- Method FunctionSetVector.copy (lines 588-592) for a vector of a
FunctionSpace, where self.space.element() resolves to
FunctionSpace.element. -/
def FunctionSpaceVector.copy (S : FSpace) (v : Vec) : Except Err Vec := do
  let result ← FunctionSpace.element S none true
  assignVec result v

/-- Method FunctionSetVector.__eq__ (lines 594-623): equal spaces, equal
calling-convention flags, equal vectorized flags, and equal evaluation
functions, compared on the in-place closure when the callable has an
output parameter and on the out-of-place closure otherwise.  Python
compares the closure objects by identity; propositional equality of the
modelled closures is its shallow counterpart. -/
def VecEq (a b : Vec) : Prop :=
  a.call_has_out = b.call_has_out ∧
  a.call_out_optional = b.call_out_optional ∧
  (if a.call_has_out then a.call_in_place = b.call_in_place
   else a.call_out_of_place = b.call_out_of_place) ∧
  a.space = b.space ∧
  a.vectorized = b.vectorized

/-- Modelled from the spec: the LinearSpace operator glue (odl.set.space is
not under src).  f + g allocates a result vector in the space and
populates it through _lincomb(1, f, 1, g, out), spec sections 3 and 8. -/
def addVec (S : FSpace) (f g : Vec) : Vec :=
  lincombVec 1 f 1 g (FunctionSpace.zero S true)

/-- Modelled from the spec: pointwise multiplication glue f * g through
_multiply(f, g, out), spec sections 3 and 8. -/
def mulVecGlue (S : FSpace) (f g : Vec) : Vec :=
  multiplyVec f g (FunctionSpace.zero S true)

/-- Method FunctionSpaceVector.__pow__ (lines 1076-1080): allocate out as
self.space.element() and populate it through _scalar_power. -/
def powVec (S : FSpace) (f : Vec) (p : ℚ) : Vec :=
  scalar_powerVec S.svect f p (FunctionSpace.zero S true)

/-- Object store addressing vector states by index, modelling Python object
identity so that aliasing between an operand and the output vector of an
algebra operator is expressible. -/
def Store := ℕ → Vec

/-- Operator _lincomb acting on the store: the operand states are read from
the pre-call store exactly as lines 786-790 read the closures into locals
before any field of out is written. -/
def lincombStore (a : ℚ) (i1 : ℕ) (b : ℚ) (i2 iout : ℕ) (σ : Store) : Store :=
  fun j => if j = iout then lincombVec a (σ i1) b (σ i2) (σ iout) else σ j

/-- Operator _multiply acting on the store (reads at lines 878-881). -/
def multiplyStore (i1 i2 iout : ℕ) (σ : Store) : Store :=
  fun j => if j = iout then multiplyVec (σ i1) (σ i2) (σ iout) else σ j

/-- Operator _divide acting on the store (reads at lines 926-929). -/
def divideStore (i1 i2 iout : ℕ) (σ : Store) : Store :=
  fun j => if j = iout then divideVec (σ i1) (σ i2) (σ iout) else σ j

/-- Method __ipow__ (lines 1082-1084) acting on the store: it calls
_scalar_power(self, p, out=self), so the operand and the output are the
same object (reads at lines 974-975). -/
def ipowStore (sv : Bool) (i : ℕ) (p : ℚ) (σ : Store) : Store :=
  fun j => if j = i then scalar_powerVec sv (σ i) p (σ i) else σ j

theorem map_mul_one_q (d : List ℚ) : d.map (fun y => y * 1) = d := by
  simp

theorem map_mul_zero_q (d : List ℚ) :
    d.map (fun y => y * 0) = List.replicate d.length 0 := by
  induction d with
  | nil => rfl
  | cons q rest ih => simp [List.replicate_succ, ih]

theorem zip_lin (a b : ℚ) (d1 d2 : List ℚ) :
    List.zipWith (fun p q => p + q) (d1.map (fun y => y * a)) (d2.map (fun y => y * b)) =
      List.zipWith (fun p q => a * p + b * q) d1 d2 := by
  induction d1 generalizing d2 with
  | nil => simp
  | cons p t ih =>
      cases d2 with
      | nil => simp
      | cons q t2 => simp [ih, mul_comm]

theorem zip_lin_left_zero (b : ℚ) (d1 d2 : List ℚ) (h : d1.length = d2.length) :
    List.zipWith (fun p q => 0 * p + b * q) d1 d2 = d2.map (fun y => y * b) := by
  induction d1 generalizing d2 with
  | nil =>
      cases d2 with
      | nil => rfl
      | cons q t => simp at h
  | cons p t ih =>
      cases d2 with
      | nil => simp at h
      | cons q t2 =>
          simp only [List.length_cons, Nat.add_right_cancel_iff] at h
          simp only [List.zipWith_cons_cons, List.map_cons]
          rw [ih t2 h]
          simp [mul_comm]

theorem zip_lin_right_zero (a : ℚ) (d1 d2 : List ℚ) (h : d1.length = d2.length) :
    List.zipWith (fun p q => a * p + 0 * q) d1 d2 = d1.map (fun y => y * a) := by
  induction d1 generalizing d2 with
  | nil => simp
  | cons p t ih =>
      cases d2 with
      | nil => simp at h
      | cons q t2 =>
          simp only [List.length_cons, Nat.add_right_cancel_iff] at h
          simp only [List.zipWith_cons_cons, List.map_cons]
          rw [ih t2 h]
          simp [mul_comm]

theorem zip_lin_zero (d1 d2 : List ℚ) :
    List.zipWith (fun p q => 0 * p + 0 * q) d1 d2 =
      List.replicate (min d1.length d2.length) 0 := by
  induction d1 generalizing d2 with
  | nil => simp
  | cons p t ih =>
      cases d2 with
      | nil => simp
      | cons q t2 =>
          simp only [List.zipWith_cons_cons, List.length_cons,
            Nat.succ_min_succ, List.replicate_succ]
          rw [ih t2]
          simp

theorem zip_add_zeros (d : List ℚ) (m : ℕ) (h : d.length = m) :
    List.zipWith (fun p q => p + q) d (List.replicate m 0) = d := by
  induction d generalizing m with
  | nil => simp
  | cons p t ih =>
      cases m with
      | zero => simp at h
      | succ k =>
          simp only [List.length_cons, Nat.add_right_cancel_iff] at h
          simp [List.replicate_succ, ih k h]

theorem zip_mul_ones (d : List ℚ) (m : ℕ) (h : d.length = m) :
    List.zipWith (fun p q => p * q) d (List.replicate m 1) = d := by
  induction d generalizing m with
  | nil => simp
  | cons p t ih =>
      cases m with
      | zero => simp at h
      | succ k =>
          simp only [List.length_cons, Nat.add_right_cancel_iff] at h
          simp [List.replicate_succ, ih k h]

theorem zip_sq_map (d : List ℚ) :
    List.zipWith (fun p q => p * q) d d = d.map (fun q => q * q) := by
  induction d with
  | nil => rfl
  | cons p t ih =>
      simp only [List.zipWith_cons_cons, List.map_cons]
      rw [ih]

theorem zip_mul_map_left (f : ℚ → ℚ) (d : List ℚ) :
    List.zipWith (fun p q => p * q) (d.map f) d = d.map (fun q => f q * q) := by
  induction d with
  | nil => rfl
  | cons p t ih =>
      simp only [List.map_cons, List.zipWith_cons_cons]
      rw [ih]

theorem set_append_len (pre : List ℚ) (x y : ℚ) (l : List ℚ) :
    (pre ++ x :: l).set pre.length y = pre ++ y :: l := by
  induction pre with
  | nil => rfl
  | cons a t ih => simp [List.set, ih]

theorem fillLoop_exact (func : V → Except Err V) (s : List ℕ)
    (pts : List V) (qs : List ℚ)
    (h : List.Forall₂ (fun pt q => func pt = .ok (V.num q)) pts qs) :
    ∀ pre : List ℚ,
      fillLoop func pts pre.length ⟨s, pre ++ List.replicate pts.length 0⟩ =
        .ok ⟨s, pre ++ qs⟩ := by
  induction h with
  | nil => intro pre; simp [fillLoop]
  | @cons pt q pts qs hpq htail ih =>
      intro pre
      have hset : (pre ++ (0 : ℚ) :: List.replicate pts.length 0).set pre.length q =
          pre ++ q :: List.replicate pts.length 0 := set_append_len pre 0 q _
      have hrec := ih (pre ++ [q])
      simp only [List.length_append, List.length_cons, List.length_nil,
        List.append_assoc, List.singleton_append] at hrec
      simp only [fillLoop, List.length_cons, List.replicate_succ, hpq, ndSet,
        Except.bind, hset]
      simpa using hrec

theorem fillLoopList_exact (func : V → Except Err V)
    (pts : List V) (qs : List ℚ)
    (h : List.Forall₂ (fun pt q => func pt = .ok (V.num q)) pts qs) :
    ∀ pre : List ℚ,
      fillLoopList func pts pre.length (pre ++ List.replicate pts.length 0) =
        .ok (pre ++ qs) := by
  induction h with
  | nil => intro pre; simp [fillLoopList]
  | @cons pt q pts qs hpq htail ih =>
      intro pre
      have hset : (pre ++ (0 : ℚ) :: List.replicate pts.length 0).set pre.length q =
          pre ++ q :: List.replicate pts.length 0 := set_append_len pre 0 q _
      have hrec := ih (pre ++ [q])
      simp only [List.length_append, List.length_cons, List.length_nil,
        List.append_assoc, List.singleton_append] at hrec
      simp only [fillLoopList, List.length_cons, List.replicate_succ, hpq,
        Except.bind, hset]
      simpa using hrec

theorem forall₂_map_map {α β γ : Type} (R : β → γ → Prop) (f : α → β) (g : α → γ) :
    ∀ l : List α, (∀ a ∈ l, R (f a) (g a)) → List.Forall₂ R (l.map f) (l.map g)
  | [], _ => List.Forall₂.nil
  | a :: t, h =>
      List.Forall₂.cons (h a (List.mem_cons_self a t))
        (forall₂_map_map R f g t (fun b hb => h b (List.mem_cons_of_mem a hb)))

theorem scaleIf_nd (c : ℚ) (s : List ℕ) (d : List ℚ) :
    scaleIf c (V.nd ⟨s, d⟩) = .ok (V.nd ⟨s, d.map (fun y => y * c)⟩) := by
  by_cases hc : c = 1
  · subst hc; simp [scaleIf, map_mul_one_q]
  · simp [scaleIf, hc, vscale]

theorem lincomb_oop_eval (a b : ℚ) (f1 f2 : X → Except Err V) (x : X)
    (s : List ℕ) (d1 d2 : List ℚ)
    (h1 : f1 x = .ok (V.nd ⟨s, d1⟩)) (h2 : f2 x = .ok (V.nd ⟨s, d2⟩))
    (hl : d1.length = d2.length) :
    lincomb_call_out_of_place a b f1 f2 x =
      .ok (V.nd ⟨s, List.zipWith (fun p q => a * p + b * q) d1 d2⟩) := by
  unfold lincomb_call_out_of_place
  by_cases ha : a = 0 <;> by_cases hb : b = 0
  · rw [if_neg (by simp [hb]), if_pos hb]
    simp only [h1, Except.bind, bind]
    rw [scaleIf_nd]
    subst ha; subst hb
    rw [map_mul_zero_q, zip_lin_zero, hl, Nat.min_self]
  · rw [if_pos ⟨ha, hb⟩]
    simp only [h2, Except.bind, bind]
    rw [scaleIf_nd]
    subst ha
    rw [zip_lin_left_zero b d1 d2 hl]
  · rw [if_neg (by simp [ha]), if_pos hb]
    simp only [h1, Except.bind, bind]
    rw [scaleIf_nd]
    subst hb
    rw [zip_lin_right_zero a d1 d2 hl]
  · rw [if_neg (by simp [ha]), if_neg hb]
    simp only [h1, h2, scaleIf_nd, Except.bind, bind]
    simp only [vadd, vbin, if_pos rfl]
    rw [zip_lin]
    simp

theorem lincomb_ip_eval (a b : ℚ) (g1 g2 : X → V → Except Err V) (x : X)
    (s : List ℕ) (d1 d2 : List ℚ)
    (h1 : ∀ o : Nd, o.shape = s → g1 x (V.nd o) = .ok (V.nd ⟨s, d1⟩))
    (h2 : ∀ o : Nd, o.shape = s → g2 x (V.nd o) = .ok (V.nd ⟨s, d2⟩))
    (hl1 : d1.length = s.prod) (hl2 : d2.length = s.prod)
    (o : Nd) (ho : o.shape = s) (hol : o.data.length = s.prod) :
    lincomb_call_in_place a b g1 g2 x (V.nd o) =
      .ok (V.nd ⟨s, List.zipWith (fun p q => a * p + b * q) d1 d2⟩) := by
  simp only [lincomb_call_in_place]
  by_cases ha : a = 0 <;> by_cases hb : b = 0
  · rw [if_pos ⟨ha, hb⟩]
    subst ha; subst hb
    simp only [vscale]
    rw [map_mul_zero_q, hol, zip_lin_zero, hl1, hl2, Nat.min_self, ho]
  · rw [if_neg (by simp [hb]), if_pos ⟨ha, hb⟩]
    simp only [h2 o ho, Except.bind, bind]
    rw [scaleIf_nd]
    subst ha
    rw [zip_lin_left_zero b d1 d2 (hl1.trans hl2.symm)]
  · rw [if_neg (by simp [ha]), if_neg (by simp [ha]), if_pos ⟨hb, ha⟩]
    simp only [h1 o ho, Except.bind, bind]
    rw [scaleIf_nd]
    subst hb
    rw [zip_lin_right_zero a d1 d2 (hl1.trans hl2.symm)]
  · rw [if_neg (by simp [ha]), if_neg (by simp [ha]), if_neg (by simp [hb])]
    have htmp : (npEmpty o.shape).shape = s := by simp [npEmpty, ho]
    simp only [h1 o ho, h2 (npEmpty o.shape) htmp, scaleIf_nd, Except.bind, bind]
    simp only [vadd, vbin, if_pos rfl]
    rw [zip_lin]
    simp

theorem product_oop_eval (f1 f2 : X → Except Err V) (x : X)
    (s : List ℕ) (d1 d2 : List ℚ)
    (h1 : f1 x = .ok (V.nd ⟨s, d1⟩)) (h2 : f2 x = .ok (V.nd ⟨s, d2⟩)) :
    product_call_out_of_place f1 f2 x =
      .ok (V.nd ⟨s, List.zipWith (fun p q => p * q) d1 d2⟩) := by
  unfold product_call_out_of_place
  simp [h1, h2, Except.bind, bind, vmul, vbin]

theorem quotient_oop_eval (f1 f2 : X → Except Err V) (x : X)
    (s : List ℕ) (d1 d2 : List ℚ)
    (h1 : f1 x = .ok (V.nd ⟨s, d1⟩)) (h2 : f2 x = .ok (V.nd ⟨s, d2⟩)) :
    quotient_call_out_of_place f1 f2 x =
      .ok (V.nd ⟨s, List.zipWith (fun p q => p / q) d1 d2⟩) := by
  unfold quotient_call_out_of_place
  simp [h1, h2, Except.bind, bind, vdiv, vbin]

theorem ipow_posint_pow :
    ∀ (n : ℕ), 1 ≤ n → ∀ (s : List ℕ) (d : List ℚ),
      ipow_posint ⟨s, d⟩ n = ⟨s, d.map (fun q => q ^ n)⟩ := by
  intro n
  induction n using Nat.strong_induction_on with
  | _ n ih =>
      intro hn s d
      by_cases hone : n = 1
      · subst hone
        unfold ipow_posint
        simp
      · by_cases heven : n % 2 = 0
        · have hn2 : 2 ≤ n := by omega
          unfold ipow_posint
          rw [if_neg hone, dif_pos heven, dif_neg (by omega)]
          have hsq : ndSq ⟨s, d⟩ = ⟨s, d.map (fun q => q * q)⟩ := by
            simp [ndSq, zip_sq_map]
          rw [hsq, ih (n / 2) (by omega) (by omega)]
          refine congrArg (Nd.mk s) ?_
          rw [List.map_map]
          refine List.map_congr_left ?_
          intro q _
          simp only [Function.comp_apply]
          rw [← pow_two, ← pow_mul, Nat.mul_div_cancel' (Nat.dvd_of_mod_eq_zero heven)]
        · have hn3 : 3 ≤ n := by omega
          unfold ipow_posint
          rw [if_neg hone, dif_neg heven]
          have hsq : ndSq ⟨s, d⟩ = ⟨s, d.map (fun q => q * q)⟩ := by
            simp [ndSq, zip_sq_map]
          rw [hsq, ih (n / 2) (by omega) (by omega)]
          simp only [ndMulSame, List.map_map]
          rw [zip_mul_map_left]
          refine congrArg (Nd.mk s) (List.map_congr_left ?_)
          intro q _
          simp only [Function.comp_apply]
          rw [← pow_two, ← pow_mul, ← pow_succ]
          have hodd : 2 * (n / 2) + 1 = n := by omega
          rw [hodd]

theorem scaleIf_one (v : V) : scaleIf 1 v = .ok v := by
  simp [scaleIf]

theorem mapM_ok {α β : Type} (g : α → β) (f : α → Except Err β)
    (hf : ∀ a, f a = .ok (g a)) :
    ∀ l : List α, l.mapM f = .ok (l.map g)
  | [] => by rw [List.mapM_nil]; rfl
  | a :: t => by
      rw [List.mapM_cons, mapM_ok g f hf t]
      simp [hf a, Except.bind, bind, pure, Except.pure]

theorem power_oop_eval (n : ℕ) (f : X → Except Err V) (x : X)
    (s : List ℕ) (d : List ℚ) (h : f x = .ok (V.nd ⟨s, d⟩)) :
    power_call_out_of_place (n : ℚ) f x =
      .ok (V.nd ⟨s, d.map (fun q => q ^ n)⟩) := by
  unfold power_call_out_of_place
  simp only [h, Except.bind, bind]
  by_cases hn : 1 ≤ n
  · rw [if_pos ⟨Rat.den_natCast n, by exact_mod_cast hn⟩]
    have hnum : ((n : ℚ)).num.toNat = n := by
      rw [Rat.num_natCast, Int.toNat_natCast]
    rw [hnum]
    simp only [pow_posint]
    rw [ipow_posint_pow n hn s d]
  · have h0 : n = 0 := by omega
    subst h0
    simp only [Nat.cast_zero]
    rw [if_neg (by norm_num)]
    simp only [vpow]
    rw [mapM_ok (fun _ => (1 : ℚ)) _ (fun q => by norm_num [qpowQ])]
    simp [Except.bind, bind]

theorem power_ip_eval (n : ℕ) (g : X → V → Except Err V) (x : X)
    (s : List ℕ) (d : List ℚ) (o : Nd)
    (h : g x (V.nd o) = .ok (V.nd ⟨s, d⟩)) :
    power_call_in_place (n : ℚ) g x (V.nd o) =
      .ok (V.nd ⟨s, d.map (fun q => q ^ n)⟩) := by
  unfold power_call_in_place
  simp only [h, Except.bind, bind]
  by_cases hn : 1 ≤ n
  · rw [if_pos ⟨Rat.den_natCast n, by exact_mod_cast hn⟩]
    have hnum : ((n : ℚ)).num.toNat = n := by
      rw [Rat.num_natCast, Int.toNat_natCast]
    rw [hnum, ipow_posint_pow n hn s d]
  · have h0 : n = 0 := by omega
    subst h0
    simp only [Nat.cast_zero]
    rw [if_neg (by norm_num)]
    simp only [vpow]
    rw [mapM_ok (fun _ => (1 : ℚ)) _ (fun q => by norm_num [qpowQ])]
    simp [Except.bind, bind]

theorem vect_array_no_out_eval (func : V → Except Err V) (d n : ℕ)
    (dat : List ℚ) (g : ℕ → ℚ)
    (hf : ∀ j, j < n → func (V.nd ⟨[d], colAt d n j dat⟩) = .ok (V.num (g j))) :
    vect_wrapper_no_out true func (X.xv (V.nd ⟨[d, n], dat⟩)) =
      .ok (V.nd ⟨[n], (List.range n).map g⟩) := by
  have hfa : List.Forall₂ (fun pt q => func pt = .ok (V.num q))
      ((List.range n).map (fun j => V.nd ⟨[d], colAt d n j dat⟩))
      ((List.range n).map g) := by
    refine forall₂_map_map _ _ _ _ ?_
    intro j hj
    exact hf j (List.mem_range.mp hj)
  have hfill := fillLoop_exact func [n] _ _ hfa []
  simp only [List.length_map, List.length_range, List.length_nil,
    List.nil_append] at hfill
  unfold vect_wrapper_no_out vect_wrapper_core
  simp only [is_valid_input_array, beq_self_eq_true, if_true]
  unfold vect_wrapper_array
  simp only [iterT, Except.bind, bind, out_shape_from_array, npEmpty]
  simp only [List.prod_cons, List.prod_nil, mul_one]
  simp [hfill]

theorem vect_array_no_out_list_eval (func : V → Except Err V) (d n : ℕ)
    (dat : List ℚ) (g : ℕ → ℚ)
    (hf : ∀ j, j < n → func (V.nd ⟨[d], colAt d n j dat⟩) = .ok (V.num (g j))) :
    vect_wrapper_no_out false func (X.xv (V.nd ⟨[d, n], dat⟩)) =
      .ok (V.plist ((List.range n).map g)) := by
  have hfa : List.Forall₂ (fun pt q => func pt = .ok (V.num q))
      ((List.range n).map (fun j => V.nd ⟨[d], colAt d n j dat⟩))
      ((List.range n).map g) := by
    refine forall₂_map_map _ _ _ _ ?_
    intro j hj
    exact hf j (List.mem_range.mp hj)
  have hfill := fillLoopList_exact func _ _ hfa []
  simp only [List.length_map, List.length_range, List.length_nil,
    List.nil_append] at hfill
  unfold vect_wrapper_no_out vect_wrapper_core
  simp only [is_valid_input_array, beq_self_eq_true, if_true]
  unfold vect_wrapper_array
  simp only [iterT, Except.bind, bind, out_shape_from_array, List.headD_cons]
  simp [hfill]

theorem scaleIf_num (c v : ℚ) : scaleIf c (V.num v) = .ok (V.num (v * c)) := by
  by_cases hc : c = 1
  · subst hc; simp [scaleIf]
  · simp [scaleIf, hc, vscale]

theorem lincomb_oop_eval_num (a b : ℚ) (f1 f2 : X → Except Err V) (x : X)
    (v1 v2 : ℚ)
    (h1 : f1 x = .ok (V.num v1)) (h2 : f2 x = .ok (V.num v2)) :
    lincomb_call_out_of_place a b f1 f2 x = .ok (V.num (a * v1 + b * v2)) := by
  unfold lincomb_call_out_of_place
  by_cases ha : a = 0 <;> by_cases hb : b = 0
  · rw [if_neg (by simp [hb]), if_pos hb]
    simp only [h1, Except.bind, bind, scaleIf_num]
    subst ha; subst hb
    norm_num
  · rw [if_pos ⟨ha, hb⟩]
    simp only [h2, Except.bind, bind, scaleIf_num]
    subst ha
    norm_num [mul_comm]
  · rw [if_neg (by simp [ha]), if_pos hb]
    simp only [h1, Except.bind, bind, scaleIf_num]
    subst hb
    norm_num [mul_comm]
  · rw [if_neg (by simp [ha]), if_neg hb]
    simp only [h1, h2, scaleIf_num, Except.bind, bind, vadd, vbin]
    norm_num [mul_comm]

theorem fillFlat_exact (func : V → Except Err V) (s : List ℕ)
    (pts : List (List ℚ)) (qs : List ℚ)
    (h : List.Forall₂ (fun pt q => func (V.tup pt) = .ok (V.num q)) pts qs) :
    ∀ pre : List ℚ,
      fillFlat func pts pre.length ⟨s, pre ++ List.replicate pts.length 0⟩ =
        .ok ⟨s, pre ++ qs⟩ := by
  induction h with
  | nil => intro pre; simp [fillFlat]
  | @cons pt q pts qs hpq htail ih =>
      intro pre
      have hset : (pre ++ (0 : ℚ) :: List.replicate pts.length 0).set pre.length q =
          pre ++ q :: List.replicate pts.length 0 := set_append_len pre 0 q _
      have hrec := ih (pre ++ [q])
      simp only [List.length_append, List.length_cons, List.length_nil,
        List.append_assoc, List.singleton_append] at hrec
      simp only [fillFlat, List.length_cons, List.replicate_succ, hpq, ndSet,
        Except.bind, hset]
      simpa using hrec

theorem bshapeRev_nil (l : List ℕ) : bshapeRev l [] = some l := by
  cases l <;> rfl

theorem broadcastShapes_single (s : List ℕ) : broadcastShapes [s] = some s := by
  have h1 : broadcastShapes [s] = bshape2 s [] := rfl
  rw [h1]
  simp [bshape2, bshapeRev_nil]

theorem vect_mesh_no_out_eval (func : V → Except Err V) (comps : List Nd)
    (os : List ℕ) (qs : List ℚ)
    (hos : out_shape_from_meshgrid comps = some os)
    (hplen : (cartProd (comps.map Nd.data)).length = os.prod)
    (hfa : List.Forall₂ (fun pt q => func (V.tup pt) = .ok (V.num q))
      (cartProd (comps.map Nd.data)) qs) :
    vect_wrapper_no_out true func (X.xmg comps) = .ok (V.nd ⟨os, qs⟩) := by
  have hbs : broadcastShapes (comps.map Nd.shape) = some os := hos
  have hfill := fillFlat_exact func os _ _ hfa []
  simp only [List.length_nil, List.nil_append, hplen] at hfill
  unfold vect_wrapper_no_out vect_wrapper_core
  simp only [is_valid_input_meshgrid, beq_self_eq_true, Bool.true_and, hbs,
    Option.isSome_some, if_true]
  unfold vect_wrapper_meshgrid
  simp [hos, npEmpty, Except.bind, bind, hfill]

/-- C2: for every function-space vector f, every natural number n and every
valid input x, the vector f ** n built by __pow__ through _scalar_power
evaluates at x to f(x) ** n pointwise, on the out-of-place path for every
n including 0 and on the in-place path when the synthesized dual-use pair
is installed; and the binary-exponentiation recursion ipow_posint returns
its argument unchanged at n = 1, squares then recurses on n / 2 for even
n, saves a copy, squares, recurses and multiplies back for odd n > 1, and
equals the pointwise n-th power for every n >= 1. -/
theorem C2_scalar_power_correct (S : FSpace) (f : Vec) (x : X)
    (s : List ℕ) (d : List ℚ)
    (hoop : f.call_out_of_place x = .ok (V.nd ⟨s, d⟩))
    (hip : ∀ o : Nd, o.shape = s → f.call_in_place x (V.nd o) = .ok (V.nd ⟨s, d⟩)) :
    (∀ n : ℕ, (powVec S f (n : ℚ)).call_out_of_place x =
        .ok (V.nd ⟨s, d.map (fun q => q ^ n)⟩)) ∧
    (S.svect = true → ∀ (n : ℕ) (o : Nd), o.shape = s →
        (powVec S f (n : ℚ)).call_in_place x (V.nd o) =
          .ok (V.nd ⟨s, d.map (fun q => q ^ n)⟩)) ∧
    (∀ a : Nd, ipow_posint a 1 = a) ∧
    (∀ (n : ℕ) (a : Nd), 2 ≤ n → n % 2 = 0 →
        ipow_posint a n = ipow_posint (ndSq a) (n / 2)) ∧
    (∀ (n : ℕ) (a : Nd), 3 ≤ n → n % 2 = 1 →
        ipow_posint a n = ndMulSame (ipow_posint (ndSq a) (n / 2)) a) ∧
    (∀ (n : ℕ) (sh : List ℕ) (dd : List ℚ), 1 ≤ n →
        ipow_posint ⟨sh, dd⟩ n = ⟨sh, dd.map (fun q => q ^ n)⟩) := by
  refine ⟨?_, ?_, ?_, ?_, ?_, ?_⟩
  · intro n
    by_cases hs : S.svect
    · simp only [powVec, scalar_powerVec, hs, if_true]
      exact power_oop_eval n _ x s d hoop
    · simp only [powVec, scalar_powerVec, hs, if_false, Bool.false_eq_true]
      exact power_oop_eval n _ x s d hoop
  · intro hs n o ho
    simp only [powVec, scalar_powerVec, hs, if_true]
    exact power_ip_eval n _ x s d o (hip o ho)
  · intro a
    unfold ipow_posint
    simp
  · intro n a h2 he
    conv_lhs => unfold ipow_posint
    rw [if_neg (by omega), dif_pos he, dif_neg (by omega)]
  · intro n a h3 ho
    conv_lhs => unfold ipow_posint
    rw [if_neg (by omega), dif_neg (by omega)]
  · intro n sh dd hn
    exact ipow_posint_pow n hn sh dd

/-- Concrete function-space vector used by the witnesses: a vectorized
callable returning the sampled values (2, 3, 5), over the interval [0, 1]
with real range. -/
def wVec235 : Vec :=
  mkFunctionSetVector 0 (interval 0 1) realNumbers
    (.oopOnly (fun _ => .ok (V.nd ⟨[3], [2, 3, 5]⟩))) true

/-- Concrete space for the witnesses. -/
def wSpace : FSpace := ⟨0, interval 0 1, realNumbers, false, true⟩

theorem C2_scalar_power_correct_witness :
    (powVec wSpace wVec235 ((5 : ℕ) : ℚ)).call_out_of_place
        (X.xv (V.nd ⟨[3], [0, 0, 0]⟩)) = .ok (V.nd ⟨[3], [32, 243, 3125]⟩) := by
  have h := C2_scalar_power_correct wSpace wVec235 (X.xv (V.nd ⟨[3], [0, 0, 0]⟩))
    [3] [2, 3, 5]
    (by norm_num [wVec235, mkFunctionSetVector])
    (by
      intro o ho
      norm_num [wVec235, mkFunctionSetVector, default_in_place,
        FunctionSetVector.call, classifyScalar, interval, inIv, allInIv,
        is_valid_input_array, is_valid_input_meshgrid, inferShape, finalReturn,
        vshape, realNumbers, List.all_cons, List.all_nil,
        Except.bind, bind, ho])
  have h5 := h.1 5
  norm_num at h5 ⊢
  exact h5

/-- C9: the vectorize decorator on a per-point function g, called on a valid
(d, N) coordinate array with no output buffer, allocates the output
exactly once (an ndarray of the inferred shape (N,) when a dtype was
given, a plain list of length N otherwise) and fills it sequentially, the
i-th entry being g applied to the i-th point, the i-th column of the
coordinate matrix (the i-th row of its transpose). -/
theorem C9_vectorize_array_fill (func : V → Except Err V) (d n : ℕ)
    (dat : List ℚ) (g : ℕ → ℚ)
    (hf : ∀ j, j < n → func (V.nd ⟨[d], colAt d n j dat⟩) = .ok (V.num (g j))) :
    vect_wrapper_no_out true func (X.xv (V.nd ⟨[d, n], dat⟩)) =
      .ok (V.nd ⟨[n], (List.range n).map g⟩) ∧
    vect_wrapper_no_out false func (X.xv (V.nd ⟨[d, n], dat⟩)) =
      .ok (V.plist ((List.range n).map g)) :=
  ⟨vect_array_no_out_eval func d n dat g hf,
   vect_array_no_out_list_eval func d n dat g hf⟩

/-- Concrete per-point function for the C9 witness: the first coordinate of
the point. -/
def wHeadFun : V → Except Err V :=
  fun v =>
    match v with
    | V.nd a => .ok (V.num (a.data.headD 0))
    | _ => .error .typeConflict

theorem C9_vectorize_array_fill_witness :
    vect_wrapper_no_out true wHeadFun (X.xv (V.nd ⟨[2, 2], [1, 2, 3, 4]⟩)) =
      .ok (V.nd ⟨[2], [1, 2]⟩) ∧
    vect_wrapper_no_out false wHeadFun (X.xv (V.nd ⟨[2, 2], [1, 2, 3, 4]⟩)) =
      .ok (V.plist [1, 2]) := by
  have h := C9_vectorize_array_fill wHeadFun 2 2 [1, 2, 3, 4]
    (fun j => ((1 : ℚ) + j))
    (by
      intro j hj
      interval_cases j <;> norm_num [wHeadFun, colAt, List.range_succ])
  have h1 := h.1
  have h2 := h.2
  norm_num [List.range_succ] at h1 h2
  exact ⟨h1, h2⟩

/-- C10: the algebra operators read the operand closures into locals before
installing the synthesized closures on out, so calling them with out
aliased to an operand, as __ipow__ does with out = self, yields a vector
whose evaluation combines the operand states read from the pre-call
store: linear combination, product and quotient of the original function
with itself, and the n-th power of the original function. -/
theorem C10_operator_alias_safety (σ : Store) (i : ℕ) (a b : ℚ) (x : X)
    (s : List ℕ) (d : List ℚ)
    (hv : (σ i).vectorized = true)
    (hoop : (σ i).call_out_of_place x = .ok (V.nd ⟨s, d⟩)) :
    (lincombStore a i b i i σ i).call_out_of_place x =
      .ok (V.nd ⟨s, List.zipWith (fun p q => a * p + b * q) d d⟩) ∧
    (multiplyStore i i i σ i).call_out_of_place x =
      .ok (V.nd ⟨s, List.zipWith (fun p q => p * q) d d⟩) ∧
    (divideStore i i i σ i).call_out_of_place x =
      .ok (V.nd ⟨s, List.zipWith (fun p q => p / q) d d⟩) ∧
    (∀ (sv : Bool) (n : ℕ), (ipowStore sv i (n : ℚ) σ i).call_out_of_place x =
      .ok (V.nd ⟨s, d.map (fun q => q ^ n)⟩)) := by
  refine ⟨?_, ?_, ?_, ?_⟩
  · simp only [lincombStore, if_pos rfl, lincombVec, hv, Bool.or_self,
      Bool.not_true, Bool.and_false, Bool.false_eq_true, if_false, if_true]
    exact lincomb_oop_eval a b _ _ x s d d hoop hoop rfl
  · simp only [multiplyStore, if_pos rfl, multiplyVec, hv, Bool.or_self,
      Bool.not_true, Bool.and_false, Bool.false_eq_true, if_false, if_true]
    exact product_oop_eval _ _ x s d d hoop hoop
  · simp only [divideStore, if_pos rfl, divideVec, hv, Bool.or_self,
      Bool.not_true, Bool.and_false, Bool.false_eq_true, if_false, if_true]
    exact quotient_oop_eval _ _ x s d d hoop hoop
  · intro sv n
    by_cases hs : sv
    · simp only [ipowStore, if_pos rfl, scalar_powerVec, hs, if_true]
      exact power_oop_eval n _ x s d hoop
    · simp only [ipowStore, if_pos rfl, scalar_powerVec, hs, if_false,
        Bool.false_eq_true]
      exact power_oop_eval n _ x s d hoop

theorem C10_operator_alias_safety_witness :
    ((lincombStore 2 7 3 7 7 (fun _ => wVec235)) 7).call_out_of_place
        (X.xv (V.num 0)) = .ok (V.nd ⟨[3], [10, 15, 25]⟩) ∧
    ((multiplyStore 7 7 7 (fun _ => wVec235)) 7).call_out_of_place
        (X.xv (V.num 0)) = .ok (V.nd ⟨[3], [4, 9, 25]⟩) := by
  have h := C10_operator_alias_safety (fun _ => wVec235) 7 2 3 (X.xv (V.num 0))
    [3] [2, 3, 5] (by norm_num [wVec235, mkFunctionSetVector])
    (by norm_num [wVec235, mkFunctionSetVector])
  have h1 := h.1
  have h2 := h.2.1
  norm_num at h1 h2
  exact ⟨h1, h2⟩

/-- Concrete non-vectorized operand for the C1 counterexample: the constant
point function returning 5, wrapped with vectorized False. -/
def cexPointVec : Vec :=
  mkFunctionSetVector 0 (rect 0 1) realNumbers
    (.oopOnly (fun _ => .ok (V.num 5))) false

/-- Concrete vectorized dual-use operand for the C1 counterexample, writing
the single sampled value 7. -/
def cexVectVec : Vec :=
  mkFunctionSetVector 0 (rect 0 1) realNumbers
    (.dualUse (fun _ _ => .ok (V.nd ⟨[1], [7]⟩))) true

/-- Concrete output vector populated by the C1 counterexample. -/
def cexOutVec : Vec := FunctionSpace.zero ⟨0, rect 0 1, realNumbers, false, true⟩ true

/-- C1 counterexample: _lincomb(1, x1, 1, x2, out) with the non-vectorized
operand x1 (the constant 5 on a two-dimensional domain) auto-promoted and
x2 vectorized, evaluated on the in-place path at the single-column
coordinate array [[0], [0]] with an allocated length-one buffer.  The
claim asserts the buffer receives 1*5 + 1*7 = 12; instead the evaluation
raises: line 797 wraps the already vectorized out-of-place closure a
second time, so each column point is treated as two one-dimensional
points and a length-two array is assigned into one scalar slot. -/
theorem C1_lincomb_linearity_cex :
    (lincombVec 1 cexPointVec 1 cexVectVec cexOutVec).call_in_place
        (X.xv (V.nd ⟨[2, 1], [0, 0]⟩)) (V.nd ⟨[1], [0]⟩) = .error .valueError ∧
    (lincombVec 1 cexPointVec 1 cexVectVec cexOutVec).call_in_place
        (X.xv (V.nd ⟨[2, 1], [0, 0]⟩)) (V.nd ⟨[1], [0]⟩) ≠
      .ok (V.nd ⟨[1], [12]⟩) := by
  have h : (lincombVec 1 cexPointVec 1 cexVectVec cexOutVec).call_in_place
      (X.xv (V.nd ⟨[2, 1], [0, 0]⟩)) (V.nd ⟨[1], [0]⟩) = .error .valueError := by
    norm_num [lincombVec, cexPointVec, cexVectVec, cexOutVec,
      mkFunctionSetVector, mkFunctionSpaceVector, FunctionSpace.zero,
      lincomb_call_in_place, promote_ip, promote_oop, vect_wrapper_pos_out,
      vect_wrapper_no_out, vect_wrapper_core, vect_wrapper_array,
      is_valid_input_array, iterT, colAt, fillLoop, ndSet, npEmpty,
      out_shape_from_array, List.range_succ, List.replicate_succ,
      List.set_cons_zero, List.set_cons_succ, scaleIf, vscale, vadd, vbin,
      Except.map, Except.bind, bind]
  exact ⟨h, by simp [h]⟩

/-- C1 (amended): the vector produced by _lincomb(a, x1, b, x2, out)
evaluates at x to a*x1(x) + b*x2(x) pointwise for all field scalars a and
b, including the fast-path cases a = 0, b = 0, a = b = 0 and a = b = 1:
out of place whenever both operands are vectorized, in place (through the
temporary buffer sized like out when both coefficients are nonzero)
whenever both operands are vectorized, out of place on coordinate-array
and meshgrid inputs when either non-vectorized operand is auto-promoted
by the vectorize decorator, and out of place pointwise when both
operands are non-vectorized (no promotion happens and the synthesized
closure combines the per-point values).  Only the in-place path with an
auto-promoted operand is excluded: there the source wraps the freshly
vectorized out-of-place closure a second time (line 797 and its copies)
and evaluation fails, as the counterexample shows. -/
theorem C1_lincomb_linearity (a b : ℚ) (x1 x2 outv : Vec) (x : X)
    (s : List ℕ) (d1 d2 : List ℚ)
    (hv1 : x1.vectorized = true) (hv2 : x2.vectorized = true)
    (h1 : x1.call_out_of_place x = .ok (V.nd ⟨s, d1⟩))
    (h2 : x2.call_out_of_place x = .ok (V.nd ⟨s, d2⟩))
    (hip1 : ∀ o : Nd, o.shape = s → x1.call_in_place x (V.nd o) = .ok (V.nd ⟨s, d1⟩))
    (hip2 : ∀ o : Nd, o.shape = s → x2.call_in_place x (V.nd o) = .ok (V.nd ⟨s, d2⟩))
    (hl1 : d1.length = s.prod) (hl2 : d2.length = s.prod) :
    (lincombVec a x1 b x2 outv).call_out_of_place x =
        .ok (V.nd ⟨s, List.zipWith (fun p q => a * p + b * q) d1 d2⟩) ∧
    (∀ o : Nd, o.shape = s → o.data.length = s.prod →
        (lincombVec a x1 b x2 outv).call_in_place x (V.nd o) =
          .ok (V.nd ⟨s, List.zipWith (fun p q => a * p + b * q) d1 d2⟩)) ∧
    (∀ (y1 : Vec) (dd n : ℕ) (dat : List ℚ) (g : ℕ → ℚ) (e2 : List ℚ),
        y1.vectorized = false →
        (∀ j, j < n → y1.call_out_of_place (X.xv (V.nd ⟨[dd], colAt dd n j dat⟩)) =
          .ok (V.num (g j))) →
        x2.call_out_of_place (X.xv (V.nd ⟨[dd, n], dat⟩)) = .ok (V.nd ⟨[n], e2⟩) →
        e2.length = n →
        (lincombVec a y1 b x2 outv).call_out_of_place (X.xv (V.nd ⟨[dd, n], dat⟩)) =
          .ok (V.nd ⟨[n], List.zipWith (fun p q => a * p + b * q)
            ((List.range n).map g) e2⟩)) ∧
    (∀ (y2 : Vec) (dd n : ℕ) (dat : List ℚ) (g : ℕ → ℚ) (e1 : List ℚ),
        y2.vectorized = false →
        (∀ j, j < n → y2.call_out_of_place (X.xv (V.nd ⟨[dd], colAt dd n j dat⟩)) =
          .ok (V.num (g j))) →
        x1.call_out_of_place (X.xv (V.nd ⟨[dd, n], dat⟩)) = .ok (V.nd ⟨[n], e1⟩) →
        e1.length = n →
        (lincombVec a x1 b y2 outv).call_out_of_place (X.xv (V.nd ⟨[dd, n], dat⟩)) =
          .ok (V.nd ⟨[n], List.zipWith (fun p q => a * p + b * q)
            e1 ((List.range n).map g)⟩)) ∧
    (∀ (y1 : Vec) (comps : List Nd) (os : List ℕ) (qs e2 : List ℚ),
        y1.vectorized = false →
        out_shape_from_meshgrid comps = some os →
        (cartProd (comps.map Nd.data)).length = os.prod →
        List.Forall₂ (fun pt q =>
            y1.call_out_of_place (X.xv (V.tup pt)) = .ok (V.num q))
          (cartProd (comps.map Nd.data)) qs →
        x2.call_out_of_place (X.xmg comps) = .ok (V.nd ⟨os, e2⟩) →
        e2.length = os.prod →
        (lincombVec a y1 b x2 outv).call_out_of_place (X.xmg comps) =
          .ok (V.nd ⟨os, List.zipWith (fun p q => a * p + b * q) qs e2⟩)) ∧
    (∀ (y2 : Vec) (comps : List Nd) (os : List ℕ) (qs e1 : List ℚ),
        y2.vectorized = false →
        out_shape_from_meshgrid comps = some os →
        (cartProd (comps.map Nd.data)).length = os.prod →
        List.Forall₂ (fun pt q =>
            y2.call_out_of_place (X.xv (V.tup pt)) = .ok (V.num q))
          (cartProd (comps.map Nd.data)) qs →
        x1.call_out_of_place (X.xmg comps) = .ok (V.nd ⟨os, e1⟩) →
        e1.length = os.prod →
        (lincombVec a x1 b y2 outv).call_out_of_place (X.xmg comps) =
          .ok (V.nd ⟨os, List.zipWith (fun p q => a * p + b * q) e1 qs⟩)) ∧
    (∀ (y1 y2 : Vec) (xp : X) (v1 v2 : ℚ),
        y1.vectorized = false → y2.vectorized = false →
        y1.call_out_of_place xp = .ok (V.num v1) →
        y2.call_out_of_place xp = .ok (V.num v2) →
        (lincombVec a y1 b y2 outv).call_out_of_place xp =
          .ok (V.num (a * v1 + b * v2))) := by
  refine ⟨?_, ?_, ?_, ?_, ?_, ?_, ?_⟩
  · simp only [lincombVec, hv1, hv2, Bool.or_self, Bool.not_true,
      Bool.and_false, Bool.false_eq_true, if_false, if_true]
    exact lincomb_oop_eval a b _ _ x s d1 d2 h1 h2 (hl1.trans hl2.symm)
  · intro o ho hol
    simp only [lincombVec, hv1, hv2, Bool.or_self, Bool.not_true,
      Bool.and_false, Bool.false_eq_true, if_false, if_true]
    exact lincomb_ip_eval a b _ _ x s d1 d2 hip1 hip2 hl1 hl2 o ho hol
  · intro y1 dd n dat g e2 hy1 hg h2arr he2
    simp only [lincombVec, hy1, hv2, Bool.or_true, Bool.not_false,
      Bool.and_true, Bool.not_true, Bool.and_false, Bool.false_eq_true,
      if_false, if_true]
    refine lincomb_oop_eval a b _ _ _ [n] ((List.range n).map g) e2 ?_ h2arr ?_
    · exact vect_array_no_out_eval _ dd n dat g (fun j hj => hg j hj)
    · simp [he2]
  · intro y2 dd n dat g e1 hy2 hg h1arr he1
    simp only [lincombVec, hy2, hv1, Bool.true_or, Bool.not_false,
      Bool.and_true, Bool.not_true, Bool.and_false, Bool.false_eq_true,
      if_false, if_true]
    refine lincomb_oop_eval a b _ _ _ [n] e1 ((List.range n).map g) h1arr ?_ ?_
    · exact vect_array_no_out_eval _ dd n dat g (fun j hj => hg j hj)
    · simp [he1]
  · intro y1 comps os qs e2 hy1 hos hplen hfa h2m he2
    simp only [lincombVec, hy1, hv2, Bool.or_true, Bool.not_false,
      Bool.and_true, Bool.not_true, Bool.and_false, Bool.false_eq_true,
      if_false, if_true]
    refine lincomb_oop_eval a b _ _ _ os qs e2 ?_ h2m ?_
    · exact vect_mesh_no_out_eval _ comps os qs hos hplen hfa
    · rw [List.Forall₂.length_eq hfa] at hplen
      rw [hplen, he2]
  · intro y2 comps os qs e1 hy2 hos hplen hfa h1m he1
    simp only [lincombVec, hy2, hv1, Bool.true_or, Bool.not_false,
      Bool.and_true, Bool.not_true, Bool.and_false, Bool.false_eq_true,
      if_false, if_true]
    refine lincomb_oop_eval a b _ _ _ os e1 qs h1m ?_ ?_
    · exact vect_mesh_no_out_eval _ comps os qs hos hplen hfa
    · rw [List.Forall₂.length_eq hfa] at hplen
      rw [hplen, he1]
  · intro y1 y2 xp v1 v2 hy1 hy2 hp1 hp2
    simp only [lincombVec, hy1, hy2, Bool.or_self, Bool.false_and,
      Bool.false_eq_true, if_false]
    exact lincomb_oop_eval_num a b _ _ xp v1 v2 hp1 hp2

theorem C1_lincomb_linearity_witness :
    (lincombVec 2 wVec235 3 wVec235 cexOutVec).call_out_of_place
        (X.xv (V.nd ⟨[3], [0, 0, 0]⟩)) = .ok (V.nd ⟨[3], [10, 15, 25]⟩) ∧
    (lincombVec 2 wVec235 3 wVec235 cexOutVec).call_in_place
        (X.xv (V.nd ⟨[3], [0, 0, 0]⟩)) (V.nd ⟨[3], [9, 9, 9]⟩) =
      .ok (V.nd ⟨[3], [10, 15, 25]⟩) := by
  have h := C1_lincomb_linearity 2 3 wVec235 wVec235 cexOutVec
    (X.xv (V.nd ⟨[3], [0, 0, 0]⟩)) [3] [2, 3, 5] [2, 3, 5]
    (by norm_num [wVec235, mkFunctionSetVector])
    (by norm_num [wVec235, mkFunctionSetVector])
    (by norm_num [wVec235, mkFunctionSetVector])
    (by norm_num [wVec235, mkFunctionSetVector])
    (by
      intro o ho
      norm_num [wVec235, mkFunctionSetVector, default_in_place,
        FunctionSetVector.call, classifyScalar, interval, inIv, allInIv,
        is_valid_input_array, is_valid_input_meshgrid, inferShape, finalReturn,
        vshape, realNumbers, List.all_cons, List.all_nil,
        Except.bind, bind, ho])
    (by
      intro o ho
      norm_num [wVec235, mkFunctionSetVector, default_in_place,
        FunctionSetVector.call, classifyScalar, interval, inIv, allInIv,
        is_valid_input_array, is_valid_input_meshgrid, inferShape, finalReturn,
        vshape, realNumbers, List.all_cons, List.all_nil,
        Except.bind, bind, ho])
    (by norm_num) (by norm_num)
  have h1 := h.1
  have h2 := h.2.1 ⟨[3], [9, 9, 9]⟩ rfl (by norm_num)
  norm_num at h1 h2
  exact ⟨h1, h2⟩

/-- C5: the vector returned by zero() is the additive identity and the
vector returned by one() the multiplicative identity of the pointwise
algebra: for a vectorized vector f whose evaluation at a valid input x
yields the sampled values with the shape expected there, (f + zero())(x)
and (f * one())(x) both equal f(x).  The hypothesis on broadcastUnpack
covers the two input families: one-dimensional coordinate arrays, where
np.broadcast of the unpacked scalars yields the 0-d shape, and
(d, N)-array or meshgrid inputs, where it yields the output shape
itself. -/
theorem C5_zero_one_identity (S : FSpace) (f : Vec) (x : X)
    (s bs : List ℕ) (d : List ℚ)
    (hvec : f.vectorized = true)
    (hoop : f.call_out_of_place x = .ok (V.nd ⟨s, d⟩))
    (hbs : broadcastUnpack x = .ok bs)
    (hcase : (bs = [] ∧ s ≠ []) ∨ (bs = s ∧ d.length = s.prod)) :
    (addVec S f (FunctionSpace.zero S true)).call_out_of_place x =
        .ok (V.nd ⟨s, d⟩) ∧
    (mulVecGlue S f (FunctionSpace.one S true)).call_out_of_place x =
        .ok (V.nd ⟨s, d⟩) := by
  have hz : (FunctionSpace.zero S true).vectorized = true := rfl
  have hzoop : (FunctionSpace.zero S true).call_out_of_place = zero_vec_closure := rfl
  have ho : (FunctionSpace.one S true).vectorized = true := rfl
  have hooop : (FunctionSpace.one S true).call_out_of_place = one_vec_closure := rfl
  constructor
  · simp only [addVec, lincombVec, hvec, hz, hzoop, Bool.or_self, Bool.not_true,
      Bool.and_false, Bool.false_eq_true, if_false, if_true]
    unfold lincomb_call_out_of_place
    rw [if_neg (by norm_num), if_neg (by norm_num)]
    simp only [hoop, Except.bind, bind, scaleIf_one, zero_vec_closure, hbs]
    rcases hcase with ⟨h1, h2⟩ | ⟨h1, h2⟩
    · subst h1
      simp only [vadd, vbin, List.prod_nil, if_neg h2]
      simp
    · subst h1
      simp only [vadd, vbin]
      simp [zip_add_zeros d bs.prod h2]
  · simp only [mulVecGlue, multiplyVec, hvec, ho, hooop, Bool.or_self,
      Bool.not_true, Bool.and_false, Bool.false_eq_true, if_false, if_true]
    unfold product_call_out_of_place
    simp only [hoop, Except.bind, bind, one_vec_closure, hbs]
    rcases hcase with ⟨h1, h2⟩ | ⟨h1, h2⟩
    · subst h1
      simp only [vmul, vbin, List.prod_nil, if_neg h2]
      simp
    · subst h1
      simp only [vmul, vbin]
      simp [zip_mul_ones d bs.prod h2]

theorem C5_zero_one_identity_witness :
    (addVec wSpace wVec235 (FunctionSpace.zero wSpace true)).call_out_of_place
        (X.xv (V.nd ⟨[2, 3], [0, 0, 0, 0, 0, 0]⟩)) =
      .ok (V.nd ⟨[3], [2, 3, 5]⟩) ∧
    (mulVecGlue wSpace wVec235 (FunctionSpace.one wSpace true)).call_out_of_place
        (X.xv (V.nd ⟨[2, 3], [0, 0, 0, 0, 0, 0]⟩)) =
      .ok (V.nd ⟨[3], [2, 3, 5]⟩) :=
  C5_zero_one_identity wSpace wVec235 (X.xv (V.nd ⟨[2, 3], [0, 0, 0, 0, 0, 0]⟩))
    [3] [3] [2, 3, 5]
    (by norm_num [wVec235, mkFunctionSetVector])
    (by norm_num [wVec235, mkFunctionSetVector])
    (by norm_num [broadcastUnpack])
    (Or.inr ⟨rfl, by norm_num⟩)

/-- Concrete plain FunctionSet vector for the C7 counterexample. -/
def c7SetVec : Vec :=
  mkFunctionSetVector 3 (interval 0 1) realNumbers
    (.oopOnly (fun _ => .ok (V.num 0))) true

/-- C7 counterexample: for a vector of a plain FunctionSet, copy() calls
self.space.element() with no callable and FunctionSet.element raises the
TypeError of line 294 (a missing fcall is not callable), so the sequence
g = f.copy(); g.assign(f) of the claim raises instead of producing a
vector equal to f. -/
theorem C7_copy_assign_cex :
    (do
      let g ← FunctionSetVector.copy (interval 0 1) realNumbers c7SetVec
      assignVec g c7SetVec) = (.error .typeConflict : Except Err Vec) := rfl

/-- C7 (amended): for a vector of a FunctionSpace, whose element() resolves
a missing callable to the zero vector, g = f.copy() followed by
g.assign(f) succeeds and yields a vector satisfying the __eq__ relation
with f, with f's evaluation closures installed, so g(x) = f(x) on every
input, and no algebraic combinator is involved; for a vector of a plain
FunctionSet the same sequence raises TypeError, as the counterexample
shows, because FunctionSet.element requires a callable. -/
theorem C7_copy_assign (S : FSpace) (v g2 : Vec) (hsp : v.space = S.tag)
    (h : (do
        let g ← FunctionSpaceVector.copy S v
        assignVec g v) = .ok g2) :
    VecEq g2 v ∧ (∀ x : X, g2.call_out_of_place x = v.call_out_of_place x) ∧
      (∀ (x : X) (o : V), g2.call_in_place x o = v.call_in_place x o) := by
  have hg2 : g2 = v := by
    obtain ⟨vs, voop, vip, vho, voo, vv⟩ := v
    have hvs : vs = S.tag := hsp
    subst hvs
    have hred : (do
        let g ← FunctionSpaceVector.copy S ⟨S.tag, voop, vip, vho, voo, vv⟩
        assignVec g ⟨S.tag, voop, vip, vho, voo, vv⟩) =
        (.ok ⟨S.tag, voop, vip, vho, voo, vv⟩ : Except Err Vec) := by
      simp [FunctionSpaceVector.copy, FunctionSpace.element, assignVec,
        FunctionSpace.zero, mkFunctionSpaceVector, mkFunctionSetVector,
        Except.bind, bind]
    rw [hred] at h
    injection h with h
    exact h.symm
  subst hg2
  refine ⟨?_, fun x => rfl, fun x o => rfl⟩
  unfold VecEq
  refine ⟨rfl, rfl, ?_, rfl, rfl⟩
  split <;> rfl

/-- Concrete function-space vector for the C7 witness. -/
def c7SpaceVec : Vec :=
  mkFunctionSpaceVector 0 (interval 0 1) realNumbers
    (.oopOnly (fun _ => .ok (V.num 0))) true

theorem C7_copy_assign_witness :
    VecEq c7SpaceVec c7SpaceVec ∧
      (∀ x : X, c7SpaceVec.call_out_of_place x = c7SpaceVec.call_out_of_place x) := by
  have h := C7_copy_assign wSpace c7SpaceVec c7SpaceVec rfl (by rfl)
  exact ⟨h.1, h.2.1⟩

/-- Concrete vectorized vector whose sampled values stay inside [0, 2]. -/
def c8Vec : Vec :=
  mkFunctionSetVector 0 (interval 0 2) realNumbers
    (.oopOnly (fun _ => .ok (V.nd ⟨[1], [1]⟩))) true

/-- C8: evaluation of the scalar input 1, an element of the domain interval
[0, 2], through __call__ with no output buffer.  The claim says such an
input is converted to a (1, 1) coordinate array, marked scalar, and the
bare value unwrapped from the length-one result is returned; instead the
membership test of line 501 is inverted (x not in self.domain guards the
conversion), so the in-domain element skips conversion, is rejected by
the input classification and the call raises the invalid-input TypeError
of lines 527-531 (on that path the local scalar_out of line 505 also
stays unbound). -/
theorem C8_scalar_input_eval :
    (interval 0 2).isElement (X.xv (V.num 1)) = true ∧
    FunctionSetVector.call (interval 0 2) realNumbers c8Vec
        (X.xv (V.num 1)) none true = .error .invalidInput := by
  constructor
  · norm_num [interval, inIv]
  · norm_num [FunctionSetVector.call, classifyScalar, interval, inIv,
      is_valid_input_array, is_valid_input_meshgrid, inferShape, realNumbers]

/-- Concrete vector whose sampled values (3, 7) leave the range [0, 1]. -/
def c4RangeBad : Vec :=
  mkFunctionSetVector 0 (interval 0 1) (interval 0 1)
    (.oopOnly (fun _ => .ok (V.nd ⟨[2], [3, 7]⟩))) true

/-- Concrete vector whose closure raises if it is ever invoked. -/
def c4Crash : Vec :=
  mkFunctionSetVector 0 (interval 0 1) (interval 0 1)
    (.oopOnly (fun _ => .error .valueError)) true

/-- Concrete dual-use vector writing the out-of-range values (3, 7). -/
def c4Dual : Vec :=
  mkFunctionSetVector 0 (interval 0 1) (interval 0 1)
    (.dualUse (fun _ _ => .ok (V.nd ⟨[2], [3, 7]⟩))) true

/-- C4: evaluation of the bounds checks on the spec-directed model of
__call__ (the source text itself parks the out-of-place range check of
lines 545-549 in an unreachable mis-indented block behind the raise of
line 542 and leaves the else of line 550 attached to the shape test, a
block that does not even parse, so the model follows the step comment of
lines 477-497 and the spec design note).  With bounds checking enabled:
an input holding the out-of-domain point 5 fails with OutOfDomain before
the closure runs (the closure here raises a different error if invoked);
an out-of-place result leaving the range fails with OutOfRange, as does
an in-place evaluation into a supplied buffer; with bounds checking
disabled the same evaluations succeed, whether the result leaves the
range or the input leaves the domain. -/
theorem C4_bounds_enforcement_eval :
    FunctionSetVector.call (interval 0 1) (interval 0 1) c4Crash
        (X.xv (V.nd ⟨[2], [0, 5]⟩)) none true = .error .outOfDomain ∧
    FunctionSetVector.call (interval 0 1) (interval 0 1) c4RangeBad
        (X.xv (V.nd ⟨[2], [0, 1]⟩)) none true = .error .outOfRange ∧
    FunctionSetVector.call (interval 0 1) (interval 0 1) c4Dual
        (X.xv (V.nd ⟨[2], [0, 1]⟩)) (some (V.nd ⟨[2], [0, 0]⟩)) true =
      .error .outOfRange ∧
    FunctionSetVector.call (interval 0 1) (interval 0 1) c4RangeBad
        (X.xv (V.nd ⟨[2], [0, 1]⟩)) none false = .ok (V.nd ⟨[2], [3, 7]⟩) ∧
    FunctionSetVector.call (interval 0 1) (interval 0 1) c4RangeBad
        (X.xv (V.nd ⟨[2], [0, 5]⟩)) none false = .ok (V.nd ⟨[2], [3, 7]⟩) := by
  refine ⟨?_, ?_, ?_, ?_, ?_⟩ <;>
    norm_num [FunctionSetVector.call, classifyScalar, interval, inIv, allInIv,
      is_valid_input_array, is_valid_input_meshgrid, inferShape, finalReturn,
      vshape, c4Crash, c4RangeBad, c4Dual, mkFunctionSetVector,
      List.all_cons, List.all_nil]

/-- Concrete vectorized vector whose result shape (2,) disagrees with the
single-point inferred shape (1,). -/
def c3BadShapeVec : Vec :=
  mkFunctionSetVector 0 (interval 0 1) realNumbers
    (.oopOnly (fun _ => .ok (V.nd ⟨[2], [3, 7]⟩))) true

/-- C3 counterexample: a vectorized vector over the interval [0, 1] called
at the single-point coordinate array of shape (1,) holding 1.  The
inferred output shape is (1,), the out-of-place result has shape (2,),
yet the call returns it unchecked: line 541 exempts an expected shape of
(1,) from the shape comparison, so no ShapeMismatch is raised. -/
theorem C3_shape_contract_cex :
    FunctionSetVector.call (interval 0 1) realNumbers c3BadShapeVec
        (X.xv (V.nd ⟨[1], [1]⟩)) none true = .ok (V.nd ⟨[2], [3, 7]⟩) ∧
    vshape (V.nd ⟨[2], [3, 7]⟩) ≠ some [1] := by
  constructor
  · norm_num [FunctionSetVector.call, classifyScalar, interval, inIv, allInIv,
      is_valid_input_array, is_valid_input_meshgrid, inferShape, finalReturn,
      vshape, c3BadShapeVec, mkFunctionSetVector, realNumbers,
      List.all_cons, List.all_nil]
  · simp [vshape]

/-- C3 (amended): for a vectorized vector with bounds checking enabled, a
(d, N) coordinate array input infers the output shape (N,) and a length-d
meshgrid infers the broadcast shape of its components; on a
one-dimensional domain a plain (N,) array keeps its own shape, a (1, N)
array is squeezed to (N,) (lines 511-514) and the single meshgrid
component is unwrapped and keeps its shape (lines 521-523).  A
successful call returns a value of the inferred shape, and a disagreeing
out-of-place result or a supplied output buffer of the wrong shape fails
with ShapeMismatch, except that line 541 exempts an inferred shape of
(1,) from the out-of-place comparison (the single-point case, where the
result is returned unchecked, as the counterexample shows; the buffer
comparison of lines 555-558 has no such exemption). -/
theorem C3_shape_contract (dom ran : SetM) (f : Vec)
    (hcap : dom.hasContainsAll = true) (hvect : f.vectorized = true)
    (hran : ∀ y, ran.containsAll y = true) :
    (∀ (d n : ℕ) (dat : List ℚ) (e : Err) (v : V),
        dom.ndim = d → d ≠ 1 → n ≠ 1 →
        dom.isElement (X.xv (V.nd ⟨[d, n], dat⟩)) = false →
        dom.toElement (X.xv (V.nd ⟨[d, n], dat⟩)) = .error e →
        FunctionSetVector.call dom ran f (X.xv (V.nd ⟨[d, n], dat⟩)) none true =
          .ok v →
        vshape v = some [n]) ∧
    (∀ (comps : List Nd) (s : List ℕ) (e : Err) (v : V),
        dom.ndim = comps.length → dom.ndim ≠ 1 →
        dom.isElement (X.xmg comps) = false →
        dom.toElement (X.xmg comps) = .error e →
        broadcastShapes (comps.map Nd.shape) = some s → s ≠ [1] →
        FunctionSetVector.call dom ran f (X.xmg comps) none true = .ok v →
        vshape v = some s) ∧
    (∀ (d n : ℕ) (dat : List ℚ) (e : Err) (w : V),
        dom.ndim = d → d ≠ 1 → n ≠ 1 →
        dom.isElement (X.xv (V.nd ⟨[d, n], dat⟩)) = false →
        dom.toElement (X.xv (V.nd ⟨[d, n], dat⟩)) = .error e →
        dom.containsAll (X.xv (V.nd ⟨[d, n], dat⟩)) = true →
        f.call_out_of_place (X.xv (V.nd ⟨[d, n], dat⟩)) = .ok w →
        vshape w ≠ some [n] →
        FunctionSetVector.call dom ran f (X.xv (V.nd ⟨[d, n], dat⟩)) none true =
          .error .shapeMismatch) ∧
    (∀ (d n : ℕ) (dat : List ℚ) (e : Err) (o : Nd),
        dom.ndim = d → d ≠ 1 →
        dom.isElement (X.xv (V.nd ⟨[d, n], dat⟩)) = false →
        dom.toElement (X.xv (V.nd ⟨[d, n], dat⟩)) = .error e →
        dom.containsAll (X.xv (V.nd ⟨[d, n], dat⟩)) = true →
        o.shape ≠ [n] →
        FunctionSetVector.call dom ran f (X.xv (V.nd ⟨[d, n], dat⟩))
            (some (V.nd o)) true = .error .shapeMismatch) ∧
    (∀ (n : ℕ) (dat : List ℚ) (e : Err) (v : V),
        dom.ndim = 1 → n ≠ 1 →
        dom.isElement (X.xv (V.nd ⟨[n], dat⟩)) = false →
        dom.toElement (X.xv (V.nd ⟨[n], dat⟩)) = .error e →
        FunctionSetVector.call dom ran f (X.xv (V.nd ⟨[n], dat⟩)) none true =
          .ok v →
        vshape v = some [n]) ∧
    (∀ (n : ℕ) (dat : List ℚ) (e : Err) (v : V),
        dom.ndim = 1 → n ≠ 1 →
        dom.isElement (X.xv (V.nd ⟨[1, n], dat⟩)) = false →
        dom.toElement (X.xv (V.nd ⟨[1, n], dat⟩)) = .error e →
        FunctionSetVector.call dom ran f (X.xv (V.nd ⟨[1, n], dat⟩)) none true =
          .ok v →
        vshape v = some [n]) ∧
    (∀ (c : Nd) (e : Err) (v : V),
        dom.ndim = 1 → c.shape ≠ [1] →
        dom.isElement (X.xmg [c]) = false →
        dom.toElement (X.xmg [c]) = .error e →
        FunctionSetVector.call dom ran f (X.xmg [c]) none true = .ok v →
        vshape v = some c.shape) ∧
    (∀ (n : ℕ) (dat : List ℚ) (e : Err) (w : V),
        dom.ndim = 1 → n ≠ 1 →
        dom.isElement (X.xv (V.nd ⟨[n], dat⟩)) = false →
        dom.toElement (X.xv (V.nd ⟨[n], dat⟩)) = .error e →
        dom.containsAll (X.xv (V.nd ⟨[n], dat⟩)) = true →
        f.call_out_of_place (X.xv (V.nd ⟨[n], dat⟩)) = .ok w →
        vshape w ≠ some [n] →
        FunctionSetVector.call dom ran f (X.xv (V.nd ⟨[n], dat⟩)) none true =
          .error .shapeMismatch) ∧
    (∀ (n : ℕ) (dat : List ℚ) (e : Err) (o : Nd),
        dom.ndim = 1 →
        dom.isElement (X.xv (V.nd ⟨[n], dat⟩)) = false →
        dom.toElement (X.xv (V.nd ⟨[n], dat⟩)) = .error e →
        dom.containsAll (X.xv (V.nd ⟨[n], dat⟩)) = true →
        o.shape ≠ [n] →
        FunctionSetVector.call dom ran f (X.xv (V.nd ⟨[n], dat⟩))
            (some (V.nd o)) true = .error .shapeMismatch) := by
  refine ⟨?_, ?_, ?_, ?_, ?_, ?_, ?_, ?_, ?_⟩
  · intro d n dat e v hnd hd1 hn1 helem htoelem hcall
    unfold FunctionSetVector.call at hcall
    rw [hcap] at hcall
    simp only [Bool.not_true, Bool.and_false, Bool.false_eq_true, if_false,
      Option.isNone_none, classifyScalar, helem, htoelem, hnd, inferShape,
      is_valid_input_array, beq_self_eq_true, if_true, if_neg hd1,
      List.getD_cons_succ, List.getD_cons_zero] at hcall
    cases hdc : dom.containsAll (X.xv (V.nd ⟨[d, n], dat⟩)) with
    | false =>
        rw [hdc] at hcall
        simp at hcall
    | true =>
        rw [hdc] at hcall
        simp only [Bool.not_true, Bool.and_false, Bool.false_eq_true,
          if_false] at hcall
        cases hoo : f.call_out_of_place (X.xv (V.nd ⟨[d, n], dat⟩)) with
        | error e2 =>
            rw [hoo] at hcall
            simp at hcall
        | ok out =>
            simp only [hoo] at hcall
            by_cases hsh : vshape out = some [n]
            · rw [if_neg (by simp [hsh])] at hcall
              rw [hran (X.xv out)] at hcall
              simp only [Bool.not_true, Bool.and_false, Bool.false_eq_true,
                if_false, finalReturn, Except.ok.injEq] at hcall
              rw [← hcall]
              exact hsh
            · rw [if_pos ⟨by simp [hn1], hsh⟩] at hcall
              simp at hcall
  · intro comps s e v hnd hd1 helem htoelem hbs hs1 hcall
    rw [hnd] at hd1
    unfold FunctionSetVector.call at hcall
    rw [hcap] at hcall
    simp only [Bool.not_true, Bool.and_false, Bool.false_eq_true, if_false,
      Option.isNone_none, classifyScalar, helem, htoelem, inferShape,
      is_valid_input_array, is_valid_input_meshgrid, hnd, hbs,
      beq_self_eq_true, Option.isSome_some, Bool.and_self, if_true,
      if_neg hd1] at hcall
    cases hdc : dom.containsAll (X.xmg comps) with
    | false =>
        rw [hdc] at hcall
        simp at hcall
    | true =>
        rw [hdc] at hcall
        simp only [Bool.not_true, Bool.and_false, Bool.false_eq_true,
          if_false] at hcall
        cases hoo : f.call_out_of_place (X.xmg comps) with
        | error e2 =>
            rw [hoo] at hcall
            simp at hcall
        | ok out =>
            simp only [hoo] at hcall
            by_cases hsh : vshape out = some s
            · rw [if_neg (by simp [hsh])] at hcall
              rw [hran (X.xv out)] at hcall
              simp only [Bool.not_true, Bool.and_false, Bool.false_eq_true,
                if_false, finalReturn, Except.ok.injEq] at hcall
              rw [← hcall]
              exact hsh
            · rw [if_pos ⟨hs1, hsh⟩] at hcall
              simp at hcall
  · intro d n dat e w hnd hd1 hn1 helem htoelem hdc hoo hsh
    unfold FunctionSetVector.call
    rw [hcap]
    simp only [Bool.not_true, Bool.and_false, Bool.false_eq_true, if_false,
      Option.isNone_none, classifyScalar, helem, htoelem, hnd, inferShape,
      is_valid_input_array, beq_self_eq_true, if_true, if_neg hd1,
      List.getD_cons_succ, List.getD_cons_zero, hdc, hoo]
    rw [if_pos ⟨by simp [hn1], hsh⟩]
  · intro d n dat e o hnd hd1 helem htoelem hdc hosh
    unfold FunctionSetVector.call
    rw [hcap]
    simp only [Bool.not_true, Bool.and_false, Bool.false_eq_true, if_false,
      Option.isNone_some, classifyScalar, helem, htoelem, hnd, inferShape,
      is_valid_input_array, beq_self_eq_true, if_true, if_neg hd1,
      List.getD_cons_succ, List.getD_cons_zero, hdc, hvect]
    rw [if_pos hosh]
  · intro n dat e v hnd hn1 helem htoelem hcall
    have hinf : inferShape dom.ndim (X.xv (V.nd ⟨[n], dat⟩)) =
        .ok (X.xv (V.nd ⟨[n], dat⟩), [n]) := by
      rw [hnd]; simp [inferShape, is_valid_input_array]
    unfold FunctionSetVector.call at hcall
    rw [hcap] at hcall
    simp only [Bool.not_true, Bool.and_false, Bool.false_eq_true, if_false,
      Option.isNone_none, classifyScalar, helem, htoelem, hinf] at hcall
    cases hdc : dom.containsAll (X.xv (V.nd ⟨[n], dat⟩)) with
    | false =>
        rw [hdc] at hcall
        simp at hcall
    | true =>
        rw [hdc] at hcall
        simp only [Bool.not_true, Bool.and_false, Bool.false_eq_true,
          if_false] at hcall
        cases hoo : f.call_out_of_place (X.xv (V.nd ⟨[n], dat⟩)) with
        | error e2 =>
            rw [hoo] at hcall
            simp at hcall
        | ok out =>
            simp only [hoo] at hcall
            by_cases hsh : vshape out = some [n]
            · rw [if_neg (by simp [hsh])] at hcall
              rw [hran (X.xv out)] at hcall
              simp only [Bool.not_true, Bool.and_false, Bool.false_eq_true,
                if_false, finalReturn, Except.ok.injEq] at hcall
              rw [← hcall]
              exact hsh
            · rw [if_pos ⟨by simp [hn1], hsh⟩] at hcall
              simp at hcall
  · intro n dat e v hnd hn1 helem htoelem hcall
    have hinf : inferShape dom.ndim (X.xv (V.nd ⟨[1, n], dat⟩)) =
        .ok (X.xv (V.nd ⟨[n], dat⟩), [n]) := by
      rw [hnd]; simp [inferShape, is_valid_input_array]
    unfold FunctionSetVector.call at hcall
    rw [hcap] at hcall
    simp only [Bool.not_true, Bool.and_false, Bool.false_eq_true, if_false,
      Option.isNone_none, classifyScalar, helem, htoelem, hinf] at hcall
    cases hdc : dom.containsAll (X.xv (V.nd ⟨[n], dat⟩)) with
    | false =>
        rw [hdc] at hcall
        simp at hcall
    | true =>
        rw [hdc] at hcall
        simp only [Bool.not_true, Bool.and_false, Bool.false_eq_true,
          if_false] at hcall
        cases hoo : f.call_out_of_place (X.xv (V.nd ⟨[n], dat⟩)) with
        | error e2 =>
            rw [hoo] at hcall
            simp at hcall
        | ok out =>
            simp only [hoo] at hcall
            by_cases hsh : vshape out = some [n]
            · rw [if_neg (by simp [hsh])] at hcall
              rw [hran (X.xv out)] at hcall
              simp only [Bool.not_true, Bool.and_false, Bool.false_eq_true,
                if_false, finalReturn, Except.ok.injEq] at hcall
              rw [← hcall]
              exact hsh
            · rw [if_pos ⟨by simp [hn1], hsh⟩] at hcall
              simp at hcall
  · intro c e v hnd hc1 helem htoelem hcall
    have hinf : inferShape dom.ndim (X.xmg [c]) =
        .ok (X.xv (V.nd c), c.shape) := by
      rw [hnd]
      simp [inferShape, is_valid_input_array, is_valid_input_meshgrid,
        broadcastShapes_single]
    unfold FunctionSetVector.call at hcall
    rw [hcap] at hcall
    simp only [Bool.not_true, Bool.and_false, Bool.false_eq_true, if_false,
      Option.isNone_none, classifyScalar, helem, htoelem, hinf] at hcall
    cases hdc : dom.containsAll (X.xv (V.nd c)) with
    | false =>
        rw [hdc] at hcall
        simp at hcall
    | true =>
        rw [hdc] at hcall
        simp only [Bool.not_true, Bool.and_false, Bool.false_eq_true,
          if_false] at hcall
        cases hoo : f.call_out_of_place (X.xv (V.nd c)) with
        | error e2 =>
            rw [hoo] at hcall
            simp at hcall
        | ok out =>
            simp only [hoo] at hcall
            by_cases hsh : vshape out = some c.shape
            · rw [if_neg (by simp [hsh])] at hcall
              rw [hran (X.xv out)] at hcall
              simp only [Bool.not_true, Bool.and_false, Bool.false_eq_true,
                if_false, finalReturn, Except.ok.injEq] at hcall
              rw [← hcall]
              exact hsh
            · rw [if_pos ⟨hc1, hsh⟩] at hcall
              simp at hcall
  · intro n dat e w hnd hn1 helem htoelem hdc hoo hsh
    have hinf : inferShape dom.ndim (X.xv (V.nd ⟨[n], dat⟩)) =
        .ok (X.xv (V.nd ⟨[n], dat⟩), [n]) := by
      rw [hnd]; simp [inferShape, is_valid_input_array]
    unfold FunctionSetVector.call
    rw [hcap]
    simp only [Bool.not_true, Bool.and_false, Bool.false_eq_true, if_false,
      Option.isNone_none, classifyScalar, helem, htoelem, hinf, hdc, hoo]
    rw [if_pos ⟨by simp [hn1], hsh⟩]
  · intro n dat e o hnd helem htoelem hdc hosh
    have hinf : inferShape dom.ndim (X.xv (V.nd ⟨[n], dat⟩)) =
        .ok (X.xv (V.nd ⟨[n], dat⟩), [n]) := by
      rw [hnd]; simp [inferShape, is_valid_input_array]
    unfold FunctionSetVector.call
    rw [hcap]
    simp only [Bool.not_true, Bool.and_false, Bool.false_eq_true, if_false,
      if_true, Option.isNone_some, classifyScalar, helem, htoelem, hinf, hdc,
      hvect]
    rw [if_pos hosh]

/-- Concrete well-behaved vectorized vector on a two-point sample. -/
def c3GoodVec : Vec :=
  mkFunctionSetVector 0 (rect 0 1) realNumbers
    (.oopOnly (fun _ => .ok (V.nd ⟨[2], [0, 1]⟩))) true

theorem C3_shape_contract_witness :
    vshape (V.nd ⟨[2], [0, 1]⟩) = some [2] ∧
    FunctionSetVector.call (rect 0 1) realNumbers c3GoodVec
        (X.xv (V.nd ⟨[2, 2], [0, 1, 0, 1]⟩)) (some (V.nd ⟨[3], [0, 0, 0]⟩))
        true = .error .shapeMismatch := by
  have h := C3_shape_contract (rect 0 1) realNumbers c3GoodVec rfl
    (by norm_num [c3GoodVec, mkFunctionSetVector]) (fun y => rfl)
  constructor
  · refine h.1 2 2 [0, 1, 0, 1] .typeConflict (V.nd ⟨[2], [0, 1]⟩) rfl
      (by norm_num) (by norm_num) rfl rfl ?_
    norm_num [FunctionSetVector.call, classifyScalar, rect, inIv, allInIv,
      is_valid_input_array, is_valid_input_meshgrid, inferShape, finalReturn,
      vshape, c3GoodVec, mkFunctionSetVector, realNumbers,
      List.all_cons, List.all_nil]
  · exact h.2.2.2.1 2 2 [0, 1, 0, 1] .typeConflict ⟨[3], [0, 0, 0]⟩ rfl
      (by norm_num) rfl rfl
      (by norm_num [rect, allInIv, inIv, List.all_cons, List.all_nil])
      (by norm_num)

end ODLF
